import Mathlib

/-!
The delete flow of the Telegram bot `tele_radarr`.

A shallow embedding of `pkg/bot/delete.go` and of the callback dispatcher of
`pkg/bot/bot.go`, followed by the properties of the per-user session state
machine that are stated about them.

Conventions of the embedding.

* Go `int` / `int64` values are `Int`s; every arithmetic operation of the
  source is followed by `wrap64`, the two's-complement wrap-around of a 64-bit
  target.
* Go maps are association lists (`GoMap`), `*radarr.Movie` pointers are
  `Movie` values (the flow never writes through them); a nil result of a map
  lookup is `none`.
* A run-time panic (nil dereference, slice bounds, division by zero) is the
  result `none` of the function in which it happens.
* The transport and the backend are not executed: every call to them is
  recorded, in order, as an `Output`. Writes to the standard output
  (`fmt.Printf`, `fmt.Println`) are not recorded.
* A session is handled through a pointer in the source. Every write to it in
  `delete.go` is followed, before the handler returns, by
  `setDeleteMovieState(command.chatID, command)`; the embedding passes the
  session by value and stores it at that call.
-/

namespace TeleRadarr

/-! ## Machine integers -/

/-- Two's-complement wrap-around of a 64-bit signed integer. -/
def wrap64 (x : Int) : Int :=
  (x + 9223372036854775808) % 18446744073709551616 - 9223372036854775808

/-- Largest value of a Go `int` on a 64-bit target. -/
def maxInt64 : Int := 9223372036854775807

/-- Range of a Go `int` on a 64-bit target. -/
def isInt64 (x : Int) : Prop := -9223372036854775808 ≤ x ∧ x ≤ 9223372036854775807

instance (x : Int) : Decidable (isInt64 x) := by
  unfold isInt64; infer_instance

/-- Go `a + b` on `int`. -/
def goAdd (a b : Int) : Int := wrap64 (a + b)

/-- Go `a - b` on `int`. -/
def goSub (a b : Int) : Int := wrap64 (a - b)

/-- Go `a * b` on `int`. -/
def goMul (a b : Int) : Int := wrap64 (a * b)

/-- Go `a / b` on `int`: truncated division, a panic when `b = 0`. -/
def goDiv (a b : Int) : Option Int :=
  if b = 0 then none else some (wrap64 (Int.tdiv a b))

/-- Go `strconv.Itoa` (and the `%d` verb): the decimal form of an integer. -/
def Itoa (x : Int) : String :=
  if x < 0 then "-" ++ Nat.repr x.natAbs else Nat.repr x.natAbs

/-- Go `len(s)`. -/
def len {α : Type} (s : List α) : Int := (s.length : Int)

/-- Go `s[lo:hi]`: a panic unless `0 ≤ lo ≤ hi ≤ cap(s)`. The upper bound
used here is `len(s)`: the one slice expression of the source has
`hi ≤ len(s)` by its clamp, so the capacity plays no part. -/
def goSlice {α : Type} (s : List α) (lo hi : Int) : Option (List α) :=
  if 0 ≤ lo ∧ lo ≤ hi ∧ hi ≤ len s then
    some ((s.drop lo.toNat).take (hi.toNat - lo.toNat))
  else none

/-! ## Go maps -/

/-- A Go map, as the list of its entries (at most one per key). -/
abbrev GoMap (κ ν : Type) := List (κ × ν)

namespace GoMap

/-- Go `m[k]` for a present key (`none` stands for the zero value / nil). -/
def get {κ ν : Type} [DecidableEq κ] (m : GoMap κ ν) (k : κ) : Option ν :=
  (m.find? (fun e => decide (e.1 = k))).map Prod.snd

/-- Go `delete(m, k)`. -/
def erase {κ ν : Type} [DecidableEq κ] (m : GoMap κ ν) (k : κ) : GoMap κ ν :=
  m.filter (fun e => !decide (e.1 = k))

/-- Go `m[k] = v`. -/
def set {κ ν : Type} [DecidableEq κ] (m : GoMap κ ν) (k : κ) (v : ν) : GoMap κ ν :=
  (k, v) :: erase m k

end GoMap

/-! ## Data model -/

/-- The fields of `radarr.Movie` that the flow reads. -/
structure Movie where
  ID : Int
  TmdbID : Int
  Title : String
  ImdbID : String
  Year : Int
  deriving DecidableEq, Repr

/-- Modelled from the spec: the declaration of the session type used by
`delete.go` is not in the embedded files (`bot.go` declares an older
`userDeleteMovie`, without most of these fields). The fields are the session
attributes of section 3 (catalog index, candidate list, selection, page, chat
and message handle), under the names by which `delete.go` reads and writes
them. -/
structure userDeleteMovie where
  library : GoMap String Movie
  moviesForSelection : List Movie
  selectedMovies : List Movie
  page : Int
  chatID : Int
  messageID : Int
  deriving DecidableEq, Repr

/-- An inline keyboard button (`tgbotapi.NewInlineKeyboardButtonData`). -/
structure Button where
  Text : String
  CallbackData : String
  deriving DecidableEq, Repr

/-- Go `tgbotapi.InlineKeyboardMarkup`: rows of buttons. -/
abbrev Keyboard := List (List Button)

/-- Go `radarr.BulkEdit`, the fields set by the flow. -/
structure BulkEdit where
  MovieIDs : List Int
  DeleteFiles : Bool
  AddImportExclusion : Bool
  deriving DecidableEq, Repr

/-- An edit-in-place of a message (`tgbotapi.EditMessageTextConfig`). -/
structure EditMessage where
  ChatID : Int
  MessageID : Int
  Text : String
  ReplyMarkup : Option Keyboard
  ParseMode : String
  DisableWebPagePreview : Bool
  deriving DecidableEq, Repr

/-- The calls made to the transport and to the backend, in order. -/
inductive Output where
  | send (chatID : Int) (text : String)
  | edit (msg : EditMessage)
  | deleteMovies (req : BulkEdit)
  deriving DecidableEq, Repr

/-- The callback tokens of `delete.go`. -/
def DeleteMovieConfirm : String := "DELETE_MOVIE_SUBMIT"
def DeleteMovieCancel : String := "DELETE_MOVIE_CANCEL"
def DeleteMovieGoBack : String := "DELETE_MOVIE_GOBACK"
def DeleteMovieYes : String := "DELETE_MOVIE_YES"
def DeleteMovieTMDBID : String := "DELETE_MOVIE_TMDBID_"
def DeleteMovieFirstPage : String := "DELETE_MOVIE_FIRST_PAGE"
def DeleteMoviePreviousPage : String := "DELETE_MOVIE_PREV_PAGE"
def DeleteMovieNextPage : String := "DELETE_MOVIE_NEXT_PAGE"
def DeleteMovieLastPage : String := "DELETE_MOVIE_LAST_PAGE"

/-- The parts of the repository that `delete.go` calls and that lie outside
the two files embedded here: package `utils`, the constant `CommandsCleared`,
and `strings.ToLower`. They are parameters of the embedding. -/
structure Lib where
  Escape : String → String
  IgnoreArticles : String → String
  ToLower : String → String
  CommandsCleared : String

/-! ## Helpers of package `bot` that the embedded files call -/

/-- Modelled from the spec: `createKeyboard` is called by `delete.go`; its
definition lies outside the embedded files. Section 4.2 describes its result
as one action row showing the given buttons; the i-th label is paired with
the i-th callback token. -/
def createKeyboard (buttonText buttonData : List String) : Keyboard :=
  [List.zipWith Button.mk buttonText buttonData]

/-- Substitution of the verbs of a format, left to right; the flag tells that
the previous character was an unconsumed `%`. -/
def sprintfAux : Bool → List Char → List String → List Char
  | false, [], _ => []
  | true, [], _ => ['%']
  | false, c :: cs, args =>
    if c = '%' then sprintfAux true cs args else c :: sprintfAux false cs args
  | true, c :: cs, args =>
    if c = '%' then '%' :: sprintfAux false cs args
    else if c = 'd' ∨ c = 'v' then
      match args with
      | a :: rest => a.data ++ sprintfAux false cs rest
      | [] => '%' :: c :: sprintfAux false cs []
    else '%' :: c :: sprintfAux false cs args

/-- Go `fmt.Sprintf` on a format whose verbs are `%d`, `%v` and `%%`, with one
argument per `%d` / `%v`: every verb is replaced by the next argument, given
in its default textual form. -/
def Sprintf (format : String) (args : List String) : String :=
  String.mk (sprintfAux false format.data args)

/-! ## Pagination / selection engine (`delete.go`) -/

/-- Go `isSelectedMovie`. -/
def isSelectedMovie : List Movie → Int → Bool
  | [], _ => false
  | selectedMovie :: rest, MovieID =>
    if selectedMovie.ID = MovieID then true else isSelectedMovie rest MovieID

/-- Go `removeMovie`. -/
def removeMovie : List Movie → Int → List Movie
  | [], _ => []
  | movie :: rest, MovieID =>
    if movie.ID ≠ MovieID then movie :: removeMovie rest MovieID
    else removeMovie rest MovieID

/-- The selection update of `handleDeleteMovieSelection` (lines 327-334). -/
def toggleSelection (selectedMovies : List Movie) (movie : Movie) : List Movie :=
  if isSelectedMovie selectedMovies movie.ID then
    removeMovie selectedMovies movie.ID
  else
    selectedMovies ++ [movie]

/-- The value `totalPages` of `showDeleteMovieSelection` (line 130) and of the
last-page case of `deleteMovie` (line 100). -/
def totalPages (movies : List Movie) (pageSize : Int) : Option Int :=
  goDiv (goSub (goAdd (len movies) pageSize) 1) pageSize

/-- The value `startIndex` of `showDeleteMovieSelection` (line 133). -/
def startIndex (page pageSize : Int) : Int := goMul page pageSize

/-- The value `endIndex` of `showDeleteMovieSelection` (lines 134-137). -/
def endIndex (movies : List Movie) (page pageSize : Int) : Int :=
  let endIndex := goMul (goAdd page 1) pageSize
  if endIndex > len movies then len movies else endIndex

/-- The records of the current page, `movies[startIndex:endIndex]`
(line 140); `none` is the slice-bounds panic. -/
def pageSlice (movies : List Movie) (page pageSize : Int) : Option (List Movie) :=
  goSlice movies (startIndex page pageSize) (endIndex movies page pageSize)

/-! ## Render layer (`showDeleteMovieSelection`) -/

/-- One keyboard row of a record (lines 141-152). -/
def movieRow (selectedMovies : List Movie) (movie : Movie) : List Button :=
  let isSelected := isSelectedMovie selectedMovies movie.ID
  let buttonText := if isSelected then movie.Title ++ " ✅" else movie.Title
  [⟨buttonText, DeleteMovieTMDBID ++ Itoa movie.TmdbID⟩]

/-- The rows `movieKeyboard` of the current page (lines 139-154). -/
def movieKeyboard (command : userDeleteMovie) (pageSize : Int) : Option Keyboard :=
  (pageSlice command.moviesForSelection command.page pageSize).map
    (fun shown => shown.map (movieRow command.selectedMovies))

/-- The row `paginationButtons` (lines 160-173), built in the order of the
source: previous, label, next, then first prepended and last appended. -/
def paginationButtons (page totalPages : Int) : List Button :=
  let buttons : List Button := []
  let buttons :=
    if page > 0 then buttons ++ [⟨"◀️", DeleteMoviePreviousPage⟩] else buttons
  let buttons :=
    buttons ++ [⟨Sprintf "%d/%d" [Itoa (goAdd page 1), Itoa totalPages], "current_page"⟩]
  let buttons :=
    if goAdd page 1 < totalPages then buttons ++ [⟨"▶️", DeleteMovieNextPage⟩]
    else buttons
  let buttons :=
    if page ≠ 0 then (⟨"⏮️", DeleteMovieFirstPage⟩ : Button) :: buttons
    else buttons
  let buttons :=
    if goAdd page 1 ≠ totalPages then buttons ++ [⟨"⏭️", DeleteMovieLastPage⟩]
    else buttons
  buttons

/-- The pagination part of the keyboard (lines 159-176): no row, or one. -/
def paginationRows (movies : List Movie) (page pageSize totalPages : Int) : Keyboard :=
  if len movies > pageSize then [paginationButtons page totalPages] else []

/-- The footer `keyboardConfirmCancel` (lines 178-189). -/
def keyboardConfirmCancel (selectedMovies : List Movie) : Keyboard :=
  if len selectedMovies > 0 then
    createKeyboard ["Submit - Confirm Movies", "Cancel - clear command"]
      [DeleteMovieConfirm, DeleteMovieCancel]
  else
    createKeyboard ["Cancel - clear command"] [DeleteMovieCancel]

/-- The title text of the list view (line 197). -/
def selectionText (L : Lib) (page totalPages : Int) : String :=
  Sprintf (L.Escape "Select the movie(s) you want to delete - page %d/%d")
    [Itoa (goAdd page 1), Itoa totalPages]

/-- The message built by `showDeleteMovieSelection` (lines 123-201); `none`
is a panic (division by zero, slice bounds). -/
def selectionMessage (L : Lib) (pageSize : Int) (command : userDeleteMovie) :
    Option EditMessage := do
  let movies := command.moviesForSelection
  let page := command.page
  let totalPages ← totalPages movies pageSize
  let movieKeyboard ← movieKeyboard command pageSize
  let keyboard : Keyboard := movieKeyboard
  let keyboard := keyboard ++ paginationRows movies page pageSize totalPages
  let keyboard := keyboard ++ keyboardConfirmCancel command.selectedMovies
  some { ChatID := command.chatID, MessageID := command.messageID,
         Text := selectionText L page totalPages,
         ReplyMarkup := some keyboard,
         ParseMode := "MarkdownV2", DisableWebPagePreview := true }

/-! ## Events, bot state and session store -/

/-- The fields of `tgbotapi.Message` that the flow reads. -/
structure Message where
  MessageID : Int
  FromID : Int
  ChatID : Int
  CommandArguments : String
  deriving DecidableEq, Repr

/-- Go `tgbotapi.CallbackQuery`; `Message` is a pointer and may be nil. -/
structure CallbackQuery where
  FromID : Int
  Message : Option Message
  Data : String
  deriving DecidableEq, Repr

/-- Go `tgbotapi.Update`: each part is a pointer and may be nil. -/
structure Update where
  Message : Option Message
  CallbackQuery : Option CallbackQuery
  deriving DecidableEq, Repr

/-- Go `userAddMovie` (`bot.go`, lines 12-19). -/
structure userAddMovie where
  searchResults : GoMap String Movie
  movie : Option Movie
  confirmation : Bool
  profileID : Option Int
  path : Option String
  addStatus : Option String
  deriving DecidableEq, Repr

/-- The fields of `config.Config` read by package `bot`: the allow-list, as
`bot.go` names it, and the page size. -/
structure Config where
  AllowedUserIDs : GoMap Int Bool
  MaxItems : Int
  deriving DecidableEq, Repr

/-- The mutable part of Go `Bot` (`bot.go`, lines 27-35) and its
configuration. -/
structure Bot where
  Config : Config
  UserActiveCommand : GoMap Int String
  AddMovieUserStates : GoMap Int userAddMovie
  DeleteMovieUserStates : GoMap Int userDeleteMovie
  deriving DecidableEq, Repr

/-- The backend `*radarr.Radarr`, as the answers it gives: the library, the
lookup results of a query, and the error (if any) of a bulk delete. -/
structure Radarr where
  GetMovie : Except String (List Movie)
  Lookup : String → Except String (List Movie)
  DeleteMovies : BulkEdit → Option String

/-- What a handler of `delete.go` leaves behind: the bot state, the calls it
made, and its boolean result. -/
structure Handled where
  bot : Bot
  out : List Output
  ret : Bool
  deriving DecidableEq, Repr

/-- Modelled from the spec: `getChatID` is called by `deleteMovie` and defined
outside the embedded files. It resolves the identity that keys the Session
Store for an event: the chat of the plain message, or the chat of the message
a button click originates from; there is none when the event has neither. -/
def getChatID (update : Update) : Option Int :=
  match update.CallbackQuery with
  | some cq => cq.Message.map (fun m => m.ChatID)
  | none => update.Message.map (fun m => m.ChatID)

/-- Modelled from the spec: `getDeleteMovieState` is defined outside the
embedded files. It is the lookup of a session in the Session Store. -/
def getDeleteMovieState (b : Bot) (chatID : Int) : Option userDeleteMovie :=
  GoMap.get b.DeleteMovieUserStates chatID

/-- Modelled from the spec: `setDeleteMovieState` is defined outside the
embedded files. It writes a session into the Session Store, replacing the one
recorded under the same identity. -/
def setDeleteMovieState (b : Bot) (chatID : Int) (command : userDeleteMovie) : Bot :=
  { b with DeleteMovieUserStates := GoMap.set b.DeleteMovieUserStates chatID command }

/-- Modelled from the spec: `clearState(update)`, as called by `delete.go`,
has its definition outside the embedded files. Clearing a session removes,
for the identity of the event, the active command and the state of each flow,
all three at once. -/
def clearState (b : Bot) (update : Update) : Bot :=
  match getChatID update with
  | none => b
  | some chatID =>
    { b with
      UserActiveCommand := GoMap.erase b.UserActiveCommand chatID
      AddMovieUserStates := GoMap.erase b.AddMovieUserStates chatID
      DeleteMovieUserStates := GoMap.erase b.DeleteMovieUserStates chatID }

/-- Go `tgbotapi.NewEditMessageText`: an edit of the text alone. -/
def NewEditMessageText (chatID messageID : Int) (text : String) : EditMessage :=
  { ChatID := chatID, MessageID := messageID, Text := text, ReplyMarkup := none,
    ParseMode := "", DisableWebPagePreview := false }

/-- Modelled from the spec: `sendMessageWithEdit` is defined outside the
embedded files. It repaints the single message of the session, by an edit in
place, with the given text. -/
def sendMessageWithEdit (command : userDeleteMovie) (text : String) : Output :=
  Output.edit (NewEditMessageText command.chatID command.messageID text)

/-! ## Command flow controller (`delete.go`) -/

/-- Go `strings.HasPrefix`. -/
def HasPrefix (s p : String) : Bool := p.data.isPrefixOf s.data

/-- Go `strings.TrimPrefix`. -/
def TrimPrefix (s p : String) : String :=
  if HasPrefix s p then String.mk (s.data.drop p.data.length) else s

/-- The sort key of the comparators of lines 46-48 and 262-264. -/
def titleKey (L : Lib) (movie : Movie) : String :=
  L.IgnoreArticles (L.ToLower movie.Title)

/-- Lexicographic comparison of two sequences of code points. -/
def ltChars : List Char → List Char → Bool
  | [], [] => false
  | [], _ :: _ => true
  | _ :: _, [] => false
  | a :: as, b :: bs =>
    if a.toNat < b.toNat then true
    else if b.toNat < a.toNat then false
    else ltChars as bs

/-- Go `a < b` on strings: the lexicographic order of the UTF-8 bytes, which
is the lexicographic order of the code points. -/
def stringLt (a b : String) : Bool := ltChars a.data b.data

/-- The comparator of lines 46-48 and 262-264. -/
def titleLess (L : Lib) (a b : Movie) : Bool := stringLt (titleKey L a) (titleKey L b)

/-- Go `sort.SliceStable` with the comparator `titleLess`: the stable sort,
which puts `a` before `b` unless `b` is strictly smaller. -/
def sortByTitle (L : Lib) (movies : List Movie) : List Movie :=
  movies.insertionSort (fun a b => titleLess L b a = false)

/-- Go `showDeleteMovieSelection`: builds the list view, records the session
and sends the edit. -/
def showDeleteMovieSelection (L : Lib) (b : Bot) (command : userDeleteMovie) :
    Option Handled := do
  let editMsg ← selectionMessage L b.Config.MaxItems command
  let b := setDeleteMovieState b command.chatID command
  some ⟨b, [Output.edit editMsg], false⟩

/-- One line of the confirmation text (lines 251-252 and 268-269). -/
def confirmLine (L : Lib) (movie : Movie) : String :=
  Sprintf "[%v](https://www.imdb.com/title/%v) \\- _%v_\n"
    [L.Escape movie.Title, movie.ImdbID, Itoa movie.Year]

/-- The labels and tokens of the confirmation keyboard (lines 246-249 and
257-260). -/
def confirmKeyboard (yesLabel : String) : Keyboard :=
  createKeyboard [yesLabel, "Cancel, clear command", "🔙"]
    [DeleteMovieYes, DeleteMovieCancel, DeleteMovieGoBack]

/-- Go `processMovieSelectionForDelete`. With two or more selected records the
selection held in the session is sorted in place. -/
def processMovieSelectionForDelete (L : Lib) (b : Bot) (command : userDeleteMovie) :
    Option Handled :=
  match command.selectedMovies with
  | [] => showDeleteMovieSelection L b command
  | [movie] =>
    let keyboard := confirmKeyboard "Yes, delete this movie"
    let messageText :=
      "Do you want to delete the following movie including all files?\n\n"
        ++ confirmLine L movie
    let editMsg : EditMessage :=
      { ChatID := command.chatID, MessageID := command.messageID,
        Text := messageText, ReplyMarkup := some keyboard,
        ParseMode := "MarkdownV2", DisableWebPagePreview := false }
    let b := setDeleteMovieState b command.chatID command
    some ⟨b, [Output.edit editMsg], false⟩
  | _ :: _ :: _ =>
    let keyboard := confirmKeyboard "Yes, delete these movies"
    let command := { command with selectedMovies := sortByTitle L command.selectedMovies }
    let messageText :=
      "Do you want to delete the following movies including all files?\n\n"
        ++ String.join (command.selectedMovies.map (confirmLine L))
    let editMsg : EditMessage :=
      { ChatID := command.chatID, MessageID := command.messageID,
        Text := messageText, ReplyMarkup := some keyboard,
        ParseMode := "MarkdownV2", DisableWebPagePreview := true }
    let b := setDeleteMovieState b command.chatID command
    some ⟨b, [Output.edit editMsg], false⟩

/-- The request built by `handleDeleteMovieYes` (lines 291-301). -/
def bulkEdit (command : userDeleteMovie) : BulkEdit :=
  { MovieIDs := command.selectedMovies.map (fun movie => movie.ID),
    DeleteFiles := true, AddImportExclusion := false }

/-- The text of the success edit of `handleDeleteMovieYes` (line 311). -/
def deletedText (command : userDeleteMovie) : String :=
  Sprintf "Deleted movies:\n- %v"
    ["\n- ".intercalate (command.selectedMovies.map (fun movie => movie.Title))]

/-- Go `handleDeleteMovieYes`. -/
def handleDeleteMovieYes (r : Radarr) (b : Bot) (update : Update)
    (command : userDeleteMovie) : Option Handled :=
  let bulkEdit := bulkEdit command
  match r.DeleteMovies bulkEdit with
  | some err =>
    some ⟨b, [Output.deleteMovies bulkEdit, Output.send command.chatID err], false⟩
  | none =>
    let editMsg := NewEditMessageText command.chatID command.messageID (deletedText command)
    let b := clearState b update
    some ⟨b, [Output.deleteMovies bulkEdit, Output.edit editMsg], true⟩

/-- Go `handleDeleteMovieSelection`; `none` is the nil dereference of
`movie.ID` when the token names no entry of `command.library`. -/
def handleDeleteMovieSelection (L : Lib) (b : Bot) (data : String)
    (command : userDeleteMovie) : Option Handled := do
  let movieIDStr := TrimPrefix data DeleteMovieTMDBID
  let movie ← GoMap.get command.library movieIDStr
  let command := { command with selectedMovies := toggleSelection command.selectedMovies movie }
  let b := setDeleteMovieState b command.chatID command
  showDeleteMovieSelection L b command

/-- Go `deleteMovie`: the transition of the delete flow on a button click. -/
def deleteMovie (L : Lib) (r : Radarr) (b : Bot) (update : Update) : Option Handled :=
  match getChatID update with
  | none => some ⟨b, [], false⟩
  | some chatID =>
    match getDeleteMovieState b chatID with
    | none => some ⟨b, [], false⟩
    | some command =>
      match update.CallbackQuery with
      | none => none
      | some cq =>
        let data := cq.Data
        if data = "current_page" then some ⟨b, [], false⟩
        else if data = DeleteMovieFirstPage then
          showDeleteMovieSelection L b { command with page := 0 }
        else if data = DeleteMoviePreviousPage then
          let command :=
            if command.page > 0 then { command with page := goSub command.page 1 }
            else command
          showDeleteMovieSelection L b command
        else if data = DeleteMovieNextPage then
          showDeleteMovieSelection L b { command with page := goAdd command.page 1 }
        else if data = DeleteMovieLastPage then do
          let totalPages ← totalPages command.moviesForSelection b.Config.MaxItems
          showDeleteMovieSelection L b { command with page := goSub totalPages 1 }
        else if data = DeleteMovieConfirm then
          processMovieSelectionForDelete L b command
        else if data = DeleteMovieYes then
          handleDeleteMovieYes r b update command
        else if data = DeleteMovieGoBack then
          showDeleteMovieSelection L b command
        else if data = DeleteMovieCancel then
          let b := clearState b update
          some ⟨b, [sendMessageWithEdit command L.CommandsCleared], false⟩
        else if HasPrefix data DeleteMovieTMDBID then
          handleDeleteMovieSelection L b data command
        else some ⟨b, [], false⟩

/-- The loop of `handleDeleteSearchResults` (lines 218-223): the lookup results
that carry a local id. -/
def moviesInLibrary (searchResults : List Movie) : List Movie :=
  searchResults.filter (fun movie => decide (movie.ID ≠ 0))

/-- Go `handleDeleteSearchResults`. -/
def handleDeleteSearchResults (L : Lib) (b : Bot) (searchResults : List Movie)
    (command : userDeleteMovie) : Option (Bot × List Output) :=
  if len searchResults = 0 then
    some (b, [sendMessageWithEdit command "No movies found matching your search criteria"])
  else if len searchResults > 25 then
    some (b, [sendMessageWithEdit command
      "Result size too large, please narrow down your search criteria"])
  else
    match moviesInLibrary searchResults with
    | [] => some (b, [sendMessageWithEdit command "No movies found in your library"])
    | [movie] =>
      let command := { command with selectedMovies := [movie] }
      let b := setDeleteMovieState b command.chatID command
      (processMovieSelectionForDelete L b command).map (fun h => (h.bot, h.out))
    | movie :: other :: rest =>
      let command := { command with moviesForSelection := movie :: other :: rest }
      let b := setDeleteMovieState b command.chatID command
      (showDeleteMovieSelection L b command).map (fun h => (h.bot, h.out))

/-- The map `command.library` built by `processDeleteCommand` (lines 37-43):
each record is stored under the decimal form of its catalog id, a later
record replacing an earlier one with the same id. -/
def buildLibrary (movies : List Movie) : GoMap String Movie :=
  movies.foldl (fun library movie => GoMap.set library (Itoa movie.TmdbID) movie) []

/-- Go `processDeleteCommand`. `message` is the answer of the transport to the
first send; `none` is the nil dereference of `update.Message`. -/
def processDeleteCommand (L : Lib) (r : Radarr) (b : Bot) (update : Update)
    (chatID : Int) (message : Message) : Option (Bot × List Output) :=
  let wait := Output.send chatID "Handling delete command... please wait"
  match r.GetMovie with
  | .error err => some (b, [wait, Output.send chatID err])
  | .ok movies =>
    let command : userDeleteMovie :=
      { library := buildLibrary movies, moviesForSelection := sortByTitle L movies,
        selectedMovies := [], page := 0,
        chatID := message.ChatID, messageID := message.MessageID }
    let b := setDeleteMovieState b chatID command
    match update.Message with
    | none => none
    | some m =>
      let criteria := m.CommandArguments
      if criteria.length < 1 then
        (showDeleteMovieSelection L b command).map (fun h => (h.bot, wait :: h.out))
      else
        match r.Lookup criteria with
        | .error err => some (b, [wait, Output.send chatID err])
        | .ok searchResults =>
          let b := setDeleteMovieState b chatID command
          (handleDeleteSearchResults L b searchResults command).map
            (fun res => (res.1, wait :: res.2))

/-! ## Dispatcher (`bot.go`) -/

namespace Dispatcher

/-- Go `clearState` of `bot.go` (lines 87-91), as the effect of its body on
the receiver. The receiver is declared `b Bot`: the method holds a copy of the
bot, and its three assignments give fresh maps to the fields of that copy. -/
def clearState (b : Bot) : Bot :=
  { b with UserActiveCommand := [], AddMovieUserStates := [], DeleteMovieUserStates := [] }

/-- A call `b.m()` of a method declared with a value receiver that returns
nothing: the method runs on its own copy, the bot of the caller is left as it
was. -/
def callByValue (method : Bot → Bot) (b : Bot) : Bot :=
  let _copy := method b
  b

/-- The notice of the default branch (line 71). -/
def resetNotice : String := "I am not sure what you mean.\nAll commands have been cleared"

/-- The default branch of the callback switch of `StartBot` (lines 68-73):
`none` is the nil dereference of `update.CallbackQuery.Message`. -/
def defaultBranch (b : Bot) (cq : CallbackQuery) : Option (Bot × List Output) :=
  let b := callByValue clearState b
  cq.Message.map (fun m => (b, [Output.send m.ChatID resetNotice]))

/-- The callback part of the loop body of `StartBot` (lines 58-75). The add
flow `addMovie` lies outside the embedded files and is a parameter. -/
def onCallback (L : Lib) (r : Radarr) (addMovie : Bot → Update → Option Handled)
    (b : Bot) (update : Update) : Option (Bot × List Output) :=
  match update.CallbackQuery with
  | none => some (b, [])
  | some cq =>
    let active := (GoMap.get b.UserActiveCommand cq.FromID).getD ""
    if active = "ADDMOVIE" then (addMovie b update).map (fun h => (h.bot, h.out))
    else if active = "DELETEMOVIE" then
      (deleteMovie L r b update).map (fun h => (h.bot, h.out))
    else defaultBranch b cq

end Dispatcher

/-- The callback tokens carried by the buttons of a keyboard, row by row. -/
def keyboardTokens (keyboard : Keyboard) : List String :=
  keyboard.flatten.map (fun button => button.CallbackData)

/-- The fixed literal tokens of the delete flow. -/
def literalTokens : List String :=
  ["current_page", DeleteMovieFirstPage, DeleteMoviePreviousPage, DeleteMovieNextPage,
   DeleteMovieLastPage, DeleteMovieConfirm, DeleteMovieYes, DeleteMovieGoBack,
   DeleteMovieCancel]

/-- The page slices rendered for the pages `0, 1, ..., tp - 1`, in order. -/
def pageSlices (movies : List Movie) (pageSize tp : Int) : List (Option (List Movie)) :=
  (List.range tp.toNat).map (fun (p : Nat) => pageSlice movies (p : Int) pageSize)

/-! ## Session invariants -/

/-- The local ids of a list of records. -/
def localIDs (movies : List Movie) : List Int := movies.map (fun movie => movie.ID)

/-- Set semantics of the selection: in every stored session no two selected
records have the same local id. -/
def SelectionsNoDup (b : Bot) : Prop :=
  ∀ chatID command, getDeleteMovieState b chatID = some command →
    (localIDs command.selectedMovies).Nodup

/-- The bot states reached from a bot without delete sessions by delete
commands and button clicks, whatever the backend answers. -/
inductive Reachable (L : Lib) : Bot → Prop where
  | start (b : Bot) (h : b.DeleteMovieUserStates = []) : Reachable L b
  | command (r : Radarr) (b : Bot) (update : Update) (chatID : Int) (message : Message)
      (res : Bot × List Output) (hb : Reachable L b)
      (h : processDeleteCommand L r b update chatID message = some res) : Reachable L res.1
  | callback (r : Radarr) (b : Bot) (update : Update) (res : Handled) (hb : Reachable L b)
      (h : deleteMovie L r b update = some res) : Reachable L res.bot

/-! ## Sample data -/

/-- A library in which `utils.Escape`, `utils.IgnoreArticles` and
`strings.ToLower` leave their argument as it is. -/
def sampleLib : Lib :=
  { Escape := id, IgnoreArticles := id, ToLower := id,
    CommandsCleared := "All commands have been cleared" }

/-- The record number `i` of the sample library. -/
def sampleMovie (i : Nat) : Movie :=
  { ID := (i : Int) + 1, TmdbID := (i : Int) + 100, Title := "Movie " ++ Nat.repr i,
    ImdbID := "tt" ++ Nat.repr i, Year := 2000 }

/-- The first `n` records of the sample library. -/
def sampleMovies (n : Nat) : List Movie := (List.range n).map sampleMovie

/-- A session over the first `n` sample records, in chat 7, on message 8. -/
def sampleSession (n : Nat) (page : Int) (selected : List Movie) : userDeleteMovie :=
  { library := buildLibrary (sampleMovies n), moviesForSelection := sampleMovies n,
    selectedMovies := selected, page := page, chatID := 7, messageID := 8 }

/-- A bot that holds one delete session, for chat 7. -/
def sampleBot (pageSize : Int) (command : userDeleteMovie) : Bot :=
  { Config := { AllowedUserIDs := [(7, true)], MaxItems := pageSize },
    UserActiveCommand := [(7, "DELETEMOVIE")], AddMovieUserStates := [],
    DeleteMovieUserStates := [(7, command)] }

/-- The sample bot before any delete command. -/
def sampleStart (pageSize : Int) : Bot :=
  { Config := { AllowedUserIDs := [(7, true)], MaxItems := pageSize },
    UserActiveCommand := [(7, "DELETEMOVIE")], AddMovieUserStates := [],
    DeleteMovieUserStates := [] }

/-- The delete command of user 7 in chat 7, with the search text `criteria`. -/
def deleteCommand (criteria : String) : Update :=
  { Message := some ⟨1, 7, 7, criteria⟩, CallbackQuery := none }

/-- The answer of the transport to the first send of the flow: message 8 of
chat 7. -/
def sentMessage : Message := ⟨8, 0, 7, ""⟩

/-- A bot in which user 7 has an active command that names no flow, and a
stored state in each flow. -/
def staleBot : Bot :=
  { Config := { AllowedUserIDs := [(7, true)], MaxItems := 2 },
    UserActiveCommand := [(7, "LISTMOVIES")],
    AddMovieUserStates := [(7, ⟨[], none, false, none, none, none⟩)],
    DeleteMovieUserStates := [(7, sampleSession 3 0 [sampleMovie 1])] }

/-- A button click in chat 7 by user 7 that carries the token `data`. -/
def click (data : String) : Update :=
  { Message := none,
    CallbackQuery := some ⟨7, some ⟨8, 1, 7, ""⟩, data⟩ }

/-- A backend whose library is the first `n` sample records and whose lookup
answers `results` to every query. -/
def searchRadarr (n : Nat) (results : List Movie) : Radarr :=
  { GetMovie := .ok (sampleMovies n), Lookup := fun _ => .ok results,
    DeleteMovies := fun _ => none }

/-- A catalog hit that is not in the library: it has no local id. -/
def catalogOnly : Movie :=
  { ID := 0, TmdbID := 348, Title := "Alien", ImdbID := "tt0078748", Year := 1979 }

/-- A lookup hit that carries a local id and a catalog id held by no record
of the sample library. -/
def strayMatch : Movie :=
  { ID := 9, TmdbID := 348, Title := "Alien", ImdbID := "tt0078748", Year := 1979 }

/-- The session stored by a delete command over the three sample records
whose lookup answers `strayMatch` and the second sample record: the candidate
list is the lookup result, the catalog index is that of the library. -/
def searchSession : userDeleteMovie :=
  { sampleSession 3 0 [] with moviesForSelection := [strayMatch, sampleMovie 1] }

/-- A backend whose library is the first `n` sample records and whose bulk
delete answers `err`. -/
def sampleRadarr (n : Nat) (err : Option String) : Radarr :=
  { GetMovie := .ok (sampleMovies n), Lookup := fun _ => .ok [], DeleteMovies := fun _ => err }

/-! ## Machine arithmetic -/

theorem wrap64_eq {x : Int} (h : isInt64 x) : wrap64 x = x := by
  unfold wrap64
  unfold isInt64 at h
  omega

theorem len_nonneg {α : Type} (s : List α) : 0 ≤ len s := by
  unfold len
  exact Int.ofNat_nonneg _

/-- Without overflow of `len + pageSize - 1`, `totalPages` is the Euclidean
quotient. -/
theorem totalPages_eq (movies : List Movie) (pageSize : Int) (h1 : 1 ≤ pageSize)
    (h2 : len movies + pageSize - 1 ≤ maxInt64) :
    totalPages movies pageSize = some ((len movies + pageSize - 1) / pageSize) := by
  have hl := len_nonneg movies
  unfold maxInt64 at h2
  have hq0 : 0 ≤ (len movies + pageSize - 1) / pageSize :=
    Int.ediv_nonneg (by omega) (by omega)
  have hq1 : (len movies + pageSize - 1) / pageSize ≤ len movies + pageSize - 1 :=
    Int.ediv_le_self _ (by omega)
  have hw : goSub (goAdd (len movies) pageSize) 1 = len movies + pageSize - 1 := by
    unfold goSub goAdd wrap64
    omega
  unfold totalPages goDiv
  rw [if_neg (by omega), hw, Int.tdiv_eq_ediv (by omega) (by omega),
    wrap64_eq (by unfold isInt64; omega)]

/-- The quotient `(n + p - 1) / p` is bracketed as a ceiling is. -/
theorem ceil_bracket (n p : Int) (hp : 1 ≤ p) :
    ((n + p - 1) / p - 1) * p < n ∧ n ≤ (n + p - 1) / p * p := by
  have e := Int.emod_add_ediv (n + p - 1) p
  have m0 := Int.emod_nonneg (n + p - 1) (show p ≠ 0 by omega)
  have m1 := Int.emod_lt_of_pos (n + p - 1) (show 0 < p by omega)
  have c : p * ((n + p - 1) / p) = (n + p - 1) / p * p := Int.mul_comm _ _
  have d : ((n + p - 1) / p - 1) * p = (n + p - 1) / p * p - p := by ring
  rw [d]
  generalize (n + p - 1) / p * p = t at *
  generalize (n + p - 1) % p = m at *
  omega

/-- The message of the list view, once the page count and the rows of the
page are known. -/
theorem selectionMessage_eq (L : Lib) (pageSize : Int) (command : userDeleteMovie)
    (tp : Int) (rows : Keyboard)
    (ht : totalPages command.moviesForSelection pageSize = some tp)
    (hk : movieKeyboard command pageSize = some rows) :
    selectionMessage L pageSize command = some
      { ChatID := command.chatID, MessageID := command.messageID,
        Text := selectionText L command.page tp,
        ReplyMarkup := some (rows
          ++ paginationRows command.moviesForSelection command.page pageSize tp
          ++ keyboardConfirmCancel command.selectedMovies),
        ParseMode := "MarkdownV2", DisableWebPagePreview := true } := by
  unfold selectionMessage
  simp only [ht, hk]
  rfl

/-! ## Page count -/

/-- C7, as amended. For every candidate list and every `pageSize ≥ 1` such
that `len + pageSize - 1` does not exceed the largest 64-bit `int`, the value
`totalPages` computed by `showDeleteMovieSelection` and by the last-page case
of `deleteMovie` is the ceiling of `len / pageSize`. -/
theorem totalPages_eq_ceil (movies : List Movie) (pageSize : Int) (h1 : 1 ≤ pageSize)
    (h2 : len movies + pageSize - 1 ≤ maxInt64) :
    totalPages movies pageSize = some ⌈((len movies : Int) : ℚ) / ((pageSize : Int) : ℚ)⌉ := by
  rw [totalPages_eq movies pageSize h1 h2]
  congr 1
  symm
  obtain ⟨b1, b2⟩ := ceil_bracket (len movies) pageSize h1
  have hp : (0 : ℚ) < ((pageSize : Int) : ℚ) := by
    exact_mod_cast (show (0 : Int) < pageSize by omega)
  rw [Int.ceil_eq_iff]
  constructor
  · rw [lt_div_iff₀ hp]
    exact_mod_cast b1
  · rw [div_le_iff₀ hp]
    exact_mod_cast b2

/-- Witness of C7: three records, five per page, one page. -/
theorem totalPages_eq_ceil_witness :
    (1 : Int) ≤ 5 ∧ len (sampleMovies 3) + 5 - 1 ≤ maxInt64 ∧
      totalPages (sampleMovies 3) 5
        = some ⌈((len (sampleMovies 3) : Int) : ℚ) / (((5 : Int) : Int) : ℚ)⌉ :=
  ⟨by decide, by decide, totalPages_eq_ceil (sampleMovies 3) 5 (by decide) (by decide)⟩

/-- C7, counterexample. With two records and `pageSize` the largest 64-bit
`int`, the sum `len + pageSize - 1` wraps around and `totalPages` is `-1`,
while the ceiling of `len / pageSize` is `1`. -/
theorem totalPages_overflow :
    sampleMovies 2 ≠ [] ∧ (1 : Int) ≤ 9223372036854775807 ∧
      isInt64 9223372036854775807 ∧
      totalPages (sampleMovies 2) 9223372036854775807 = some (-1) ∧
      ⌈((len (sampleMovies 2) : Int) : ℚ) / (((9223372036854775807 : Int) : Int) : ℚ)⌉ = 1 ∧
      totalPages (sampleMovies 2) 9223372036854775807
        ≠ some ⌈((len (sampleMovies 2) : Int) : ℚ) / (((9223372036854775807 : Int) : Int) : ℚ)⌉ := by
  have hc : ⌈((len (sampleMovies 2) : Int) : ℚ) / (((9223372036854775807 : Int) : Int) : ℚ)⌉ = 1 := by
    rw [Int.ceil_eq_iff]
    have hl : len (sampleMovies 2) = 2 := by decide
    rw [hl]
    norm_num
  refine ⟨by decide, by decide, by decide, by decide, hc, ?_⟩
  rw [hc]
  decide

/-- C8, as amended. For every `pageSize ≥ 1` the page count computed for an
empty candidate list is 0; at page 0 the empty list renders with the title
arguments 1 and 0 ("page 1/0"), zero record rows, no pagination row, and the
footer alone. -/
theorem empty_list_render (L : Lib) (pageSize : Int) (command : userDeleteMovie)
    (h1 : 1 ≤ pageSize) (h2 : isInt64 pageSize)
    (hm : command.moviesForSelection = []) (hp : command.page = 0) :
    totalPages command.moviesForSelection pageSize = some 0 ∧
      movieKeyboard command pageSize = some [] ∧
      selectionMessage L pageSize command = some
        { ChatID := command.chatID, MessageID := command.messageID,
          Text := Sprintf (L.Escape "Select the movie(s) you want to delete - page %d/%d")
            ["1", "0"],
          ReplyMarkup := some (keyboardConfirmCancel command.selectedMovies),
          ParseMode := "MarkdownV2", DisableWebPagePreview := true } := by
  have hl : len ([] : List Movie) = 0 := rfl
  have ht : totalPages command.moviesForSelection pageSize = some 0 := by
    unfold isInt64 at h2
    rw [hm, totalPages_eq [] pageSize h1 (by rw [hl]; unfold maxInt64; omega), hl]
    congr 1
    exact Int.ediv_eq_zero_of_lt (by omega) (by omega)
  have hk : movieKeyboard command pageSize = some [] := by
    unfold movieKeyboard pageSlice goSlice startIndex endIndex
    rw [hm, hp, hl]
    have hw : goMul (goAdd 0 1) pageSize = pageSize := by
      unfold goMul
      rw [show goAdd 0 1 = 1 by decide, Int.one_mul, wrap64_eq h2]
    have hs : goMul 0 pageSize = 0 := by
      unfold goMul
      rw [Int.zero_mul]
      decide
    simp only [hw, hs]
    rw [if_pos (by omega)]
    simp
  refine ⟨ht, hk, ?_⟩
  rw [selectionMessage_eq L pageSize command 0 [] ht hk]
  have hpg : paginationRows command.moviesForSelection command.page pageSize 0 = [] := by
    unfold paginationRows
    rw [hm, hl, if_neg (by omega)]
  have hx : selectionText L command.page 0
      = Sprintf (L.Escape "Select the movie(s) you want to delete - page %d/%d") ["1", "0"] := by
    unfold selectionText
    rw [hp]
    rfl
  simp [hpg, hx]

/-- Witness of C8: the empty list, ten per page. -/
theorem empty_list_render_witness :
    totalPages (sampleSession 0 0 []).moviesForSelection 10 = some 0 ∧
      movieKeyboard (sampleSession 0 0 []) 10 = some [] ∧
      selectionMessage sampleLib 10 (sampleSession 0 0 []) = some
        { ChatID := 7, MessageID := 8,
          Text := "Select the movie(s) you want to delete - page 1/0",
          ReplyMarkup := some [[⟨"Cancel - clear command", DeleteMovieCancel⟩]],
          ParseMode := "MarkdownV2", DisableWebPagePreview := true } :=
  empty_list_render sampleLib 10 (sampleSession 0 0 []) (by decide) (by decide) rfl rfl

/-- C8, counterexample. For the empty list and ten per page the page count is
0, not 1, and the title reads "page 1/0", not "page 1/1". -/
theorem empty_list_page_count_not_one :
    (1 : Int) ≤ 10 ∧ totalPages ([] : List Movie) 10 = some 0 ∧
      totalPages ([] : List Movie) 10 ≠ some 1 ∧
      (selectionMessage sampleLib 10 (sampleSession 0 0 [])).map (fun m => m.Text)
        = some "Select the movie(s) you want to delete - page 1/0" := by
  decide

/-! ## Page slice -/

/-- C9, the code at the failing input. Three records, two per page, page 2:
`page*pageSize = 4 ≥ 3 = len`, the end index is clamped to 3, and the slice
`movies[4:3]` panics; no message is built and `showDeleteMovieSelection` does
not return. -/
theorem pageSlice_panics_past_the_end :
    (1 : Int) ≤ 2 ∧ (0 : Int) ≤ 2 ∧ (2 : Int) * 2 ≥ len (sampleMovies 3) ∧
      startIndex 2 2 = 4 ∧ endIndex (sampleMovies 3) 2 2 = 3 ∧
      pageSlice (sampleMovies 3) 2 2 = none ∧
      selectionMessage sampleLib 2 (sampleSession 3 2 []) = none ∧
      showDeleteMovieSelection sampleLib (sampleBot 2 (sampleSession 3 2 []))
        (sampleSession 3 2 []) = none := by
  decide

/-! ## Pagination row -/

theorem Sprintf_label (a b : String) : Sprintf "%d/%d" [a, b] = a ++ "/" ++ b := by
  apply String.ext
  simp [Sprintf, sprintfAux]

theorem tdiv_nonpos_bounds (a b : Int) (ha : a ≤ 0) (hb : 1 ≤ b) :
    a ≤ a.tdiv b ∧ a.tdiv b ≤ 0 := by
  have e : a = -(-a) := by omega
  have h0 : 0 ≤ (-a) / b := Int.ediv_nonneg (by omega) (by omega)
  have h1 : (-a) / b ≤ -a := Int.ediv_le_self _ (by omega)
  rw [e, Int.neg_tdiv, Int.tdiv_eq_ediv (by omega) (by omega)]
  omega

/-- A positive page count is computed without overflow. -/
theorem totalPages_pos (movies : List Movie) (pageSize tp : Int) (h1 : 1 ≤ pageSize)
    (h2 : isInt64 pageSize) (h3 : isInt64 (len movies))
    (ht : totalPages movies pageSize = some tp) (hp : 0 < tp) :
    len movies + pageSize - 1 ≤ maxInt64 := by
  by_contra hc
  have hl := len_nonneg movies
  unfold maxInt64 at hc
  unfold isInt64 at h2 h3
  have hw : goSub (goAdd (len movies) pageSize) 1
      = len movies + pageSize - 1 - 18446744073709551616 := by
    unfold goSub goAdd wrap64
    omega
  unfold totalPages goDiv at ht
  rw [if_neg (by omega), hw] at ht
  obtain ⟨b1, b2⟩ := tdiv_nonpos_bounds
    (len movies + pageSize - 1 - 18446744073709551616) pageSize (by omega) h1
  rw [wrap64_eq (by unfold isInt64; omega)] at ht
  injection ht with ht
  omega

/-- Inside the page range the slice of the page does not panic. -/
theorem pageSlice_isSome (movies : List Movie) (pageSize page tp : Int) (h1 : 1 ≤ pageSize)
    (h2 : isInt64 pageSize) (h3 : isInt64 (len movies))
    (ht : totalPages movies pageSize = some tp) (hp : 0 ≤ page ∧ page < tp) :
    ∃ shown, pageSlice movies page pageSize = some shown := by
  have hno := totalPages_pos movies pageSize tp h1 h2 h3 ht (by omega)
  rw [totalPages_eq movies pageSize h1 hno] at ht
  injection ht with ht
  obtain ⟨b1, b2⟩ := ceil_bracket (len movies) pageSize h1
  have hle : (len movies + pageSize - 1) / pageSize ≤ len movies + pageSize - 1 :=
    Int.ediv_le_self _ (by have := len_nonneg movies; omega)
  rw [ht] at b1 b2 hle
  have hl := len_nonneg movies
  unfold maxInt64 at hno
  unfold isInt64 at h2 h3
  have m1 : (page + 1) * pageSize ≤ tp * pageSize :=
    Int.mul_le_mul_of_nonneg_right (by omega) (by omega)
  have m2 : 0 ≤ page * pageSize := Int.mul_nonneg (by omega) (by omega)
  have m3 : (page + 1) * pageSize = page * pageSize + pageSize := by ring
  have m4 : (tp - 1) * pageSize = tp * pageSize - pageSize := by ring
  have s1 : startIndex page pageSize = page * pageSize := by
    unfold startIndex goMul
    exact wrap64_eq (by unfold isInt64; omega)
  have s2 : goMul (goAdd page 1) pageSize = page * pageSize + pageSize := by
    unfold goMul goAdd
    rw [wrap64_eq (x := page + 1) (by unfold isInt64; omega), m3]
    exact wrap64_eq (by unfold isInt64; omega)
  unfold pageSlice goSlice endIndex
  simp only [s1, s2]
  split_ifs with c1 c2 c3
  · exact ⟨_, rfl⟩
  · exact absurd ⟨m2, by omega, le_refl _⟩ c2
  · exact ⟨_, rfl⟩
  · exact absurd ⟨m2, by omega, by omega⟩ c3

/-- C10. For every session with `pageSize ≥ 1` and `0 ≤ page < totalPages`,
the keyboard of the list view is the record rows, then one pagination row iff
`len(candidateList) > pageSize`, then the footer; the pagination row is, in
order, the first-page and previous-page buttons iff `page > 0`, the label
"<page+1>/<totalPages>" with the token `current_page`, and the next-page and
last-page buttons iff `page + 1 < totalPages`. -/
theorem pagination_row (L : Lib) (pageSize : Int) (command : userDeleteMovie) (tp : Int)
    (h1 : 1 ≤ pageSize) (h2 : isInt64 pageSize)
    (h3 : isInt64 (len command.moviesForSelection))
    (ht : totalPages command.moviesForSelection pageSize = some tp)
    (hp : 0 ≤ command.page ∧ command.page < tp) :
    ∃ rows msg, movieKeyboard command pageSize = some rows ∧
      selectionMessage L pageSize command = some msg ∧
      msg.ReplyMarkup = some (rows
        ++ (if len command.moviesForSelection > pageSize then
              [(if command.page > 0 then
                  [⟨"⏮️", DeleteMovieFirstPage⟩, ⟨"◀️", DeleteMoviePreviousPage⟩]
                else [])
               ++ [⟨Itoa (command.page + 1) ++ "/" ++ Itoa tp, "current_page"⟩]
               ++ (if command.page + 1 < tp then
                  [⟨"▶️", DeleteMovieNextPage⟩, ⟨"⏭️", DeleteMovieLastPage⟩]
                else [])]
            else [])
        ++ keyboardConfirmCancel command.selectedMovies) := by
  obtain ⟨shown, hs⟩ :=
    pageSlice_isSome command.moviesForSelection pageSize command.page tp h1 h2 h3 ht hp
  have hk : movieKeyboard command pageSize
      = some (shown.map (movieRow command.selectedMovies)) := by
    unfold movieKeyboard
    rw [hs]
    rfl
  refine ⟨_, _, hk, selectionMessage_eq L pageSize command tp _ ht hk, ?_⟩
  have hno := totalPages_pos command.moviesForSelection pageSize tp h1 h2 h3 ht (by omega)
  have hq := totalPages_eq command.moviesForSelection pageSize h1 hno
  rw [ht] at hq
  injection hq with hq
  have hle : tp ≤ len command.moviesForSelection + pageSize - 1 := by
    rw [hq]
    exact Int.ediv_le_self _ (by have := len_nonneg command.moviesForSelection; omega)
  unfold maxInt64 at hno
  have ha : goAdd command.page 1 = command.page + 1 := by
    unfold goAdd
    exact wrap64_eq (by unfold isInt64; omega)
  simp only
  congr 2
  unfold paginationRows paginationButtons
  rw [ha, Sprintf_label]
  have e1 : command.page > 0 ↔ command.page ≠ 0 := by omega
  have e2 : command.page + 1 < tp ↔ command.page + 1 ≠ tp := by omega
  simp only [e1, e2]
  split_ifs <;> rfl

/-- Witness of C10: 30 records, ten per page, page 0: the label reads 1/3,
there is no first-page or previous-page button, the next-page and last-page
buttons are present. -/
theorem pagination_row_witness :
    ((1 : Int) ≤ 10 ∧ isInt64 10 ∧ isInt64 (len (sampleSession 30 0 []).moviesForSelection) ∧
      totalPages (sampleSession 30 0 []).moviesForSelection 10 = some 3 ∧
      (0 ≤ (sampleSession 30 0 []).page ∧ (sampleSession 30 0 []).page < 3)) ∧
    ∃ rows msg, movieKeyboard (sampleSession 30 0 []) 10 = some rows ∧
      selectionMessage sampleLib 10 (sampleSession 30 0 []) = some msg ∧
      msg.ReplyMarkup = some (rows
        ++ [[⟨"1/3", "current_page"⟩, ⟨"▶️", DeleteMovieNextPage⟩,
             ⟨"⏭️", DeleteMovieLastPage⟩]]
        ++ keyboardConfirmCancel []) :=
  ⟨by decide,
   pagination_row sampleLib 10 (sampleSession 30 0 []) 3 (by decide) (by decide) (by decide)
    (by decide) (by decide)⟩

/-! ## Selection -/

theorem isSelectedMovie_iff (selectedMovies : List Movie) (MovieID : Int) :
    isSelectedMovie selectedMovies MovieID = true ↔ MovieID ∈ localIDs selectedMovies := by
  induction selectedMovies with
  | nil => simp [isSelectedMovie, localIDs]
  | cons movie rest ih =>
    unfold isSelectedMovie
    by_cases c : movie.ID = MovieID
    · simp [c, localIDs]
    · rw [if_neg c, ih]
      have c2 : ¬ MovieID = movie.ID := fun e => c e.symm
      simp [localIDs, c2]

theorem removeMovie_eq_filter (selectedMovies : List Movie) (MovieID : Int) :
    removeMovie selectedMovies MovieID
      = selectedMovies.filter (fun movie => decide (movie.ID ≠ MovieID)) := by
  induction selectedMovies with
  | nil => rfl
  | cons movie rest ih =>
    unfold removeMovie
    by_cases c : movie.ID = MovieID
    · simp [c, ih]
    · simp [c, ih]

theorem mem_localIDs_removeMovie (selectedMovies : List Movie) (MovieID i : Int) :
    i ∈ localIDs (removeMovie selectedMovies MovieID)
      ↔ i ∈ localIDs selectedMovies ∧ i ≠ MovieID := by
  rw [removeMovie_eq_filter]
  simp only [localIDs, List.mem_map, List.mem_filter, decide_eq_true_eq]
  constructor
  · rintro ⟨m, ⟨hm, hne⟩, rfl⟩
    exact ⟨⟨m, hm, rfl⟩, hne⟩
  · rintro ⟨⟨m, hm, rfl⟩, hne⟩
    exact ⟨m, ⟨hm, hne⟩, rfl⟩

/-- C2. Applying the row-click toggle twice with the same record gives a
selection with the same set of local ids as the original selection. -/
theorem toggle_twice_same_ids (selectedMovies : List Movie) (movie : Movie) :
    (localIDs (toggleSelection (toggleSelection selectedMovies movie) movie)).toFinset
      = (localIDs selectedMovies).toFinset := by
  ext i
  simp only [List.mem_toFinset]
  by_cases c : isSelectedMovie selectedMovies movie.ID = true
  · have hmem := (isSelectedMovie_iff selectedMovies movie.ID).mp c
    have h1 : toggleSelection selectedMovies movie = removeMovie selectedMovies movie.ID := by
      unfold toggleSelection
      rw [if_pos c]
    have h2 : ¬ isSelectedMovie (removeMovie selectedMovies movie.ID) movie.ID = true := by
      rw [isSelectedMovie_iff, mem_localIDs_removeMovie]
      exact fun h => h.2 rfl
    rw [h1]
    unfold toggleSelection
    rw [if_neg h2]
    simp only [localIDs, List.map_append, List.mem_append, List.map_cons, List.map_nil,
      List.mem_singleton]
    have h3 := mem_localIDs_removeMovie selectedMovies movie.ID i
    simp only [localIDs] at h3 hmem
    rw [h3]
    constructor
    · rintro (h | h)
      · exact h.1
      · rw [h]
        exact hmem
    · intro h
      by_cases e : i = movie.ID
      · exact Or.inr e
      · exact Or.inl ⟨h, e⟩
  · have h1 : toggleSelection selectedMovies movie = selectedMovies ++ [movie] := by
      unfold toggleSelection
      rw [if_neg c]
    have h2 : isSelectedMovie (selectedMovies ++ [movie]) movie.ID = true := by
      rw [isSelectedMovie_iff]
      simp [localIDs]
    rw [h1]
    unfold toggleSelection
    rw [if_pos h2, mem_localIDs_removeMovie]
    have hn : movie.ID ∉ localIDs selectedMovies := fun h =>
      c ((isSelectedMovie_iff selectedMovies movie.ID).mpr h)
    simp only [localIDs, List.map_append, List.mem_append, List.map_cons, List.map_nil,
      List.mem_singleton]
    simp only [localIDs] at hn
    constructor
    · rintro ⟨h | h, hne⟩
      · exact h
      · exact absurd h hne
    · intro h
      exact ⟨Or.inl h, fun e => hn (e ▸ h)⟩

/-- The toggle keeps the local ids of the selection pairwise distinct. -/
theorem nodup_toggleSelection (selectedMovies : List Movie) (movie : Movie)
    (h : (localIDs selectedMovies).Nodup) :
    (localIDs (toggleSelection selectedMovies movie)).Nodup := by
  unfold toggleSelection
  by_cases c : isSelectedMovie selectedMovies movie.ID = true
  · rw [if_pos c, removeMovie_eq_filter]
    exact List.Nodup.sublist (List.Sublist.map _ (List.filter_sublist _)) h
  · rw [if_neg c]
    have hn : movie.ID ∉ localIDs selectedMovies := fun h =>
      c ((isSelectedMovie_iff selectedMovies movie.ID).mpr h)
    unfold localIDs at *
    rw [List.map_append, List.map_cons, List.map_nil]
    exact List.Nodup.append h (List.nodup_singleton _)
      (List.disjoint_singleton.mpr hn)

/-- The sort of the confirmation keeps the local ids pairwise distinct. -/
theorem nodup_sortByTitle (L : Lib) (movies : List Movie) (h : (localIDs movies).Nodup) :
    (localIDs (sortByTitle L movies)).Nodup := by
  unfold sortByTitle localIDs
  exact ((List.perm_insertionSort _ movies).map _).nodup_iff.mpr h

/-! ## Session store -/

theorem GoMap.get_cons {κ ν : Type} [DecidableEq κ] (e : κ × ν) (m : GoMap κ ν) (k : κ) :
    GoMap.get (e :: m) k = if e.1 = k then some e.2 else GoMap.get m k := by
  unfold GoMap.get
  rw [List.find?_cons]
  by_cases c : e.1 = k
  · simp [c]
  · simp [c]

theorem GoMap.erase_cons {κ ν : Type} [DecidableEq κ] (e : κ × ν) (m : GoMap κ ν) (k : κ) :
    GoMap.erase (e :: m) k = if e.1 = k then GoMap.erase m k else e :: GoMap.erase m k := by
  unfold GoMap.erase
  rw [List.filter_cons]
  by_cases c : e.1 = k
  · simp [c]
  · simp [c]

theorem GoMap.get_erase {κ ν : Type} [DecidableEq κ] (m : GoMap κ ν) (k k' : κ) :
    GoMap.get (GoMap.erase m k) k' = if k = k' then none else GoMap.get m k' := by
  induction m with
  | nil =>
    have h : GoMap.get (GoMap.erase ([] : GoMap κ ν) k) k' = none := rfl
    rw [h]
    split_ifs <;> rfl
  | cons e rest ih =>
    rw [GoMap.erase_cons, GoMap.get_cons]
    by_cases c : e.1 = k
    · rw [if_pos c, ih]
      by_cases c' : k = k'
      · rw [if_pos c', if_pos c']
      · rw [if_neg c', if_neg c', if_neg (fun h => c' (c.symm.trans h))]
    · rw [if_neg c, GoMap.get_cons, ih]
      by_cases c' : k = k'
      · rw [if_pos c', if_pos c', if_neg (fun h => c (h.trans c'.symm))]
      · rw [if_neg c', if_neg c']

theorem GoMap.get_set {κ ν : Type} [DecidableEq κ] (m : GoMap κ ν) (k k' : κ) (v : ν) :
    GoMap.get (GoMap.set m k v) k' = if k = k' then some v else GoMap.get m k' := by
  unfold GoMap.set
  rw [GoMap.get_cons, GoMap.get_erase]
  by_cases c : k = k'
  · rw [if_pos c, if_pos c]
  · rw [if_neg c, if_neg c, if_neg c]

theorem getDeleteMovieState_set (b : Bot) (k k' : Int) (command : userDeleteMovie) :
    getDeleteMovieState (setDeleteMovieState b k command) k'
      = if k = k' then some command else getDeleteMovieState b k' := by
  unfold getDeleteMovieState setDeleteMovieState
  exact GoMap.get_set _ _ _ _

theorem getDeleteMovieState_clearState (b : Bot) (update : Update) (chatID k' : Int)
    (h : getChatID update = some chatID) :
    getDeleteMovieState (clearState b update) k'
      = if chatID = k' then none else getDeleteMovieState b k' := by
  unfold getDeleteMovieState clearState
  rw [h]
  exact GoMap.get_erase _ _ _

/-! ## Set semantics of the selection -/

theorem nodup_set (b : Bot) (k : Int) (command : userDeleteMovie) (hb : SelectionsNoDup b)
    (hc : (localIDs command.selectedMovies).Nodup) :
    SelectionsNoDup (setDeleteMovieState b k command) := by
  intro k' c' h
  rw [getDeleteMovieState_set] at h
  by_cases e : k = k'
  · rw [if_pos e] at h
    injection h with h
    rw [← h]
    exact hc
  · rw [if_neg e] at h
    exact hb k' c' h

theorem nodup_clearState (b : Bot) (update : Update) (hb : SelectionsNoDup b) :
    SelectionsNoDup (clearState b update) := by
  intro k' c' h
  cases hk : getChatID update with
  | none =>
    unfold clearState at h
    rw [hk] at h
    exact hb k' c' h
  | some chatID =>
    rw [getDeleteMovieState_clearState b update chatID k' hk] at h
    by_cases e : chatID = k'
    · rw [if_pos e] at h
      exact absurd h (by simp)
    · rw [if_neg e] at h
      exact hb k' c' h

theorem nodup_show (L : Lib) (b : Bot) (command : userDeleteMovie) (res : Handled)
    (hb : SelectionsNoDup b) (hc : (localIDs command.selectedMovies).Nodup)
    (h : showDeleteMovieSelection L b command = some res) : SelectionsNoDup res.bot := by
  unfold showDeleteMovieSelection at h
  cases hm : selectionMessage L b.Config.MaxItems command with
  | none => simp [hm] at h
  | some editMsg =>
    simp [hm] at h
    rw [← h]
    exact nodup_set b _ command hb hc

theorem nodup_process (L : Lib) (b : Bot) (command : userDeleteMovie) (res : Handled)
    (hb : SelectionsNoDup b) (hc : (localIDs command.selectedMovies).Nodup)
    (h : processMovieSelectionForDelete L b command = some res) :
    SelectionsNoDup res.bot := by
  unfold processMovieSelectionForDelete at h
  split at h
  · exact nodup_show L b command res hb hc h
  · simp only [Option.some.injEq] at h
    rw [← h]
    exact nodup_set b _ command hb hc
  · simp only [Option.some.injEq] at h
    rw [← h]
    exact nodup_set b _ _ hb (nodup_sortByTitle L _ hc)

theorem nodup_yes (r : Radarr) (b : Bot) (update : Update) (command : userDeleteMovie)
    (res : Handled) (hb : SelectionsNoDup b)
    (h : handleDeleteMovieYes r b update command = some res) : SelectionsNoDup res.bot := by
  unfold handleDeleteMovieYes at h
  simp only at h
  split at h
  · simp only [Option.some.injEq] at h
    rw [← h]
    exact hb
  · simp only [Option.some.injEq] at h
    rw [← h]
    exact nodup_clearState b update hb

theorem nodup_selection (L : Lib) (b : Bot) (data : String) (command : userDeleteMovie)
    (res : Handled) (hb : SelectionsNoDup b) (hc : (localIDs command.selectedMovies).Nodup)
    (h : handleDeleteMovieSelection L b data command = some res) :
    SelectionsNoDup res.bot := by
  unfold handleDeleteMovieSelection at h
  cases hm : GoMap.get command.library (TrimPrefix data DeleteMovieTMDBID) with
  | none => simp [hm] at h
  | some movie =>
    simp only [hm, Option.bind_eq_bind, Option.some_bind] at h
    exact nodup_show L _ _ res
      (nodup_set b _ _ hb (nodup_toggleSelection _ movie hc))
      (nodup_toggleSelection _ movie hc) h

theorem nodup_deleteMovie (L : Lib) (r : Radarr) (b : Bot) (update : Update) (res : Handled)
    (hb : SelectionsNoDup b) (h : deleteMovie L r b update = some res) :
    SelectionsNoDup res.bot := by
  unfold deleteMovie at h
  split at h
  · simp only [Option.some.injEq] at h
    rw [← h]
    exact hb
  · rename_i chatID hk
    split at h
    · simp only [Option.some.injEq] at h
      rw [← h]
      exact hb
    · rename_i command hg
      have hc := hb chatID command hg
      split at h
      · exact absurd h (by simp)
      · rename_i cq hq
        by_cases c1 : cq.Data = "current_page"
        · rw [if_pos c1] at h
          simp only [Option.some.injEq] at h
          rw [← h]
          exact hb
        rw [if_neg c1] at h
        by_cases c2 : cq.Data = DeleteMovieFirstPage
        · rw [if_pos c2] at h
          exact nodup_show L b _ res hb (by exact hc) h
        rw [if_neg c2] at h
        by_cases c3 : cq.Data = DeleteMoviePreviousPage
        · rw [if_pos c3] at h
          refine nodup_show L b _ res hb ?_ h
          split_ifs <;> exact hc
        rw [if_neg c3] at h
        by_cases c4 : cq.Data = DeleteMovieNextPage
        · rw [if_pos c4] at h
          exact nodup_show L b _ res hb (by exact hc) h
        rw [if_neg c4] at h
        by_cases c5 : cq.Data = DeleteMovieLastPage
        · rw [if_pos c5] at h
          cases ht : totalPages command.moviesForSelection b.Config.MaxItems with
          | none => simp [ht] at h
          | some tp =>
            simp only [ht, Option.bind_eq_bind, Option.some_bind] at h
            exact nodup_show L b _ res hb (by exact hc) h
        rw [if_neg c5] at h
        by_cases c6 : cq.Data = DeleteMovieConfirm
        · rw [if_pos c6] at h
          exact nodup_process L b command res hb hc h
        rw [if_neg c6] at h
        by_cases c7 : cq.Data = DeleteMovieYes
        · rw [if_pos c7] at h
          exact nodup_yes r b update command res hb h
        rw [if_neg c7] at h
        by_cases c8 : cq.Data = DeleteMovieGoBack
        · rw [if_pos c8] at h
          exact nodup_show L b command res hb hc h
        rw [if_neg c8] at h
        by_cases c9 : cq.Data = DeleteMovieCancel
        · rw [if_pos c9] at h
          simp only [Option.some.injEq] at h
          rw [← h]
          exact nodup_clearState b update hb
        rw [if_neg c9] at h
        by_cases c10 : HasPrefix cq.Data DeleteMovieTMDBID = true
        · rw [if_pos c10] at h
          exact nodup_selection L b _ command res hb hc h
        rw [if_neg c10] at h
        simp only [Option.some.injEq] at h
        rw [← h]
        exact hb

theorem nodup_searchResults (L : Lib) (b : Bot) (searchResults : List Movie)
    (command : userDeleteMovie) (res : Bot × List Output) (hb : SelectionsNoDup b)
    (hc : (localIDs command.selectedMovies).Nodup)
    (h : handleDeleteSearchResults L b searchResults command = some res) :
    SelectionsNoDup res.1 := by
  unfold handleDeleteSearchResults at h
  by_cases c1 : len searchResults = 0
  · rw [if_pos c1] at h
    simp only [Option.some.injEq] at h
    rw [← h]
    exact hb
  rw [if_neg c1] at h
  by_cases c2 : len searchResults > 25
  · rw [if_pos c2] at h
    simp only [Option.some.injEq] at h
    rw [← h]
    exact hb
  rw [if_neg c2] at h
  split at h
  · simp only [Option.some.injEq] at h
    rw [← h]
    exact hb
  · rename_i movie hm
    obtain ⟨r1, hr1, hfst⟩ := Option.map_eq_some'.mp h
    rw [← hfst]
    have hn : (localIDs [movie]).Nodup := List.nodup_singleton _
    refine nodup_process L _ _ r1 ?_ ?_ hr1
    · exact nodup_set b _ _ hb hn
    · exact hn
  · rename_i movie other rest hm
    obtain ⟨r1, hr1, hfst⟩ := Option.map_eq_some'.mp h
    rw [← hfst]
    refine nodup_show L _ _ r1 ?_ ?_ hr1
    · exact nodup_set b _ _ hb hc
    · exact hc

theorem nodup_command (L : Lib) (r : Radarr) (b : Bot) (update : Update) (chatID : Int)
    (message : Message) (res : Bot × List Output) (hb : SelectionsNoDup b)
    (h : processDeleteCommand L r b update chatID message = some res) :
    SelectionsNoDup res.1 := by
  have hn : (localIDs ([] : List Movie)).Nodup := List.nodup_nil
  unfold processDeleteCommand at h
  simp only at h
  split at h
  · simp only [Option.some.injEq] at h
    rw [← h]
    exact hb
  · rename_i movies hm
    split at h
    · exact absurd h (by simp)
    · rename_i m hmsg
      by_cases c : m.CommandArguments.length < 1
      · rw [if_pos c] at h
        obtain ⟨r1, hr1, hfst⟩ := Option.map_eq_some'.mp h
        rw [← hfst]
        refine nodup_show L _ _ r1 ?_ ?_ hr1
        · exact nodup_set b _ _ hb hn
        · exact hn
      · rw [if_neg c] at h
        split at h
        · simp only [Option.some.injEq] at h
          rw [← h]
          exact nodup_set b _ _ hb hn
        · rename_i searchResults hl
          obtain ⟨r1, hr1, hfst⟩ := Option.map_eq_some'.mp h
          rw [← hfst]
          refine nodup_searchResults L _ searchResults _ r1 ?_ ?_ hr1
          · exact nodup_set _ _ _ (nodup_set b _ _ hb hn) hn
          · exact hn

/-- C3. In every bot state reached from a bot without delete sessions by
delete commands and button clicks (row clicks, pagination clicks, Submit,
Back, and every other token), no stored session has two selected records with
the same local id. -/
theorem selection_nodup (L : Lib) (b : Bot) (h : Reachable L b) : SelectionsNoDup b := by
  induction h with
  | start b h =>
    intro chatID command hg
    unfold getDeleteMovieState at hg
    rw [h] at hg
    exact absurd hg (by simp [GoMap.get])
  | command r b update chatID message res _ h ih =>
    exact nodup_command L r b update chatID message res ih h
  | callback r b update res _ h ih => exact nodup_deleteMovie L r b update res ih h

/-- Witness of C3: the bot reached by a delete command over three records and
a click on the row of the second one. -/
theorem selection_nodup_witness :
    Reachable sampleLib (sampleBot 2 (sampleSession 3 0 [sampleMovie 1])) ∧
      SelectionsNoDup (sampleBot 2 (sampleSession 3 0 [sampleMovie 1])) := by
  have h1 : (processDeleteCommand sampleLib (sampleRadarr 3 none) (sampleStart 2)
      (deleteCommand "") 7 sentMessage).map Prod.fst
        = some (sampleBot 2 (sampleSession 3 0 [])) := by decide
  obtain ⟨r1, hr1, hfst1⟩ := Option.map_eq_some'.mp h1
  have hb1 : Reachable sampleLib (sampleBot 2 (sampleSession 3 0 [])) := by
    rw [← hfst1]
    exact Reachable.command (sampleRadarr 3 none) (sampleStart 2) (deleteCommand "") 7
      sentMessage r1 (Reachable.start (sampleStart 2) rfl) hr1
  have h2 : (deleteMovie sampleLib (sampleRadarr 3 none) (sampleBot 2 (sampleSession 3 0 []))
      (click "DELETE_MOVIE_TMDBID_101")).map (fun res => res.bot)
        = some (sampleBot 2 (sampleSession 3 0 [sampleMovie 1])) := by decide
  obtain ⟨r2, hr2, hfst2⟩ := Option.map_eq_some'.mp h2
  have hb2 : Reachable sampleLib (sampleBot 2 (sampleSession 3 0 [sampleMovie 1])) := by
    rw [← hfst2]
    exact Reachable.callback (sampleRadarr 3 none) _ (click "DELETE_MOVIE_TMDBID_101") r2
      hb1 hr2
  exact ⟨hb2, selection_nodup sampleLib _ hb2⟩

/-! ## Confirm-Yes and Cancel -/

theorem Sprintf_deleted (a : String) :
    Sprintf "Deleted movies:\n- %v" [a] = "Deleted movies:\n- " ++ a := by
  apply String.ext
  simp [Sprintf, sprintfAux]

/-- The dispatch of `deleteMovie` on the Yes token. -/
theorem deleteMovie_yes (L : Lib) (r : Radarr) (b : Bot) (update : Update) (chatID : Int)
    (command : userDeleteMovie) (cq : CallbackQuery)
    (hk : getChatID update = some chatID) (hg : getDeleteMovieState b chatID = some command)
    (hq : update.CallbackQuery = some cq) (hd : cq.Data = DeleteMovieYes) :
    deleteMovie L r b update = handleDeleteMovieYes r b update command := by
  unfold deleteMovie
  simp only [hk, hg, hq, hd]
  rw [if_neg (by decide), if_neg (by decide), if_neg (by decide), if_neg (by decide),
    if_neg (by decide), if_neg (by decide)]
  exact if_pos trivial

/-- The dispatch of `deleteMovie` on the Cancel token. -/
theorem deleteMovie_cancel (L : Lib) (r : Radarr) (b : Bot) (update : Update) (chatID : Int)
    (command : userDeleteMovie) (cq : CallbackQuery)
    (hk : getChatID update = some chatID) (hg : getDeleteMovieState b chatID = some command)
    (hq : update.CallbackQuery = some cq) (hd : cq.Data = DeleteMovieCancel) :
    deleteMovie L r b update
      = some ⟨clearState b update, [sendMessageWithEdit command L.CommandsCleared], false⟩ := by
  unfold deleteMovie
  simp only [hk, hg, hq, hd]
  rw [if_neg (by decide), if_neg (by decide), if_neg (by decide), if_neg (by decide),
    if_neg (by decide), if_neg (by decide), if_neg (by decide), if_neg (by decide)]
  exact if_pos trivial

/-- After `clearState(update)` the three maps hold no entry for the identity
of the event. -/
theorem clearState_clears (b : Bot) (update : Update) (chatID : Int)
    (hk : getChatID update = some chatID) :
    getDeleteMovieState (clearState b update) chatID = none ∧
      GoMap.get (clearState b update).UserActiveCommand chatID = none ∧
      GoMap.get (clearState b update).AddMovieUserStates chatID = none := by
  unfold getDeleteMovieState clearState
  rw [hk]
  simp only [GoMap.get_erase, if_pos]
  exact ⟨trivial, trivial, trivial⟩

/-- C4. On the Yes token, `deleteMovie` (through `handleDeleteMovieYes`) first
sends the backend one bulk-delete request whose `MovieIDs` are the local ids
of `selectedMovies`, in order, with `DeleteFiles = true`; when the backend
call succeeds, the only other call is the edit of the session message to
"Deleted movies:" followed by the titles of those records, and the session,
the active command and the add-flow state of the identity are cleared. -/
theorem yes_deletes_selection (L : Lib) (r : Radarr) (b : Bot) (update : Update)
    (chatID : Int) (command : userDeleteMovie) (cq : CallbackQuery)
    (hk : getChatID update = some chatID) (hg : getDeleteMovieState b chatID = some command)
    (hq : update.CallbackQuery = some cq) (hd : cq.Data = DeleteMovieYes) :
    ∃ res rest, deleteMovie L r b update = some res ∧
      res.out = Output.deleteMovies
          { MovieIDs := command.selectedMovies.map (fun movie => movie.ID),
            DeleteFiles := true, AddImportExclusion := false } :: rest ∧
      (∀ req, Output.deleteMovies req ∉ rest) ∧
      (r.DeleteMovies (bulkEdit command) = none →
        rest = [Output.edit
          { ChatID := command.chatID, MessageID := command.messageID,
            Text := "Deleted movies:\n- "
              ++ "\n- ".intercalate (command.selectedMovies.map (fun movie => movie.Title)),
            ReplyMarkup := none, ParseMode := "", DisableWebPagePreview := false }] ∧
        res.ret = true ∧
        getDeleteMovieState res.bot chatID = none ∧
        GoMap.get res.bot.UserActiveCommand chatID = none ∧
        GoMap.get res.bot.AddMovieUserStates chatID = none) := by
  rw [deleteMovie_yes L r b update chatID command cq hk hg hq hd]
  unfold handleDeleteMovieYes
  cases he : r.DeleteMovies (bulkEdit command) with
  | some err =>
    simp only [he]
    refine ⟨_, _, rfl, rfl, ?_, ?_⟩
    · intro req hm
      simp at hm
    · intro h
      exact absurd h (by simp)
  | none =>
    simp only [he]
    refine ⟨_, _, rfl, rfl, ?_, ?_⟩
    · intro req hm
      simp at hm
    · intro _
      refine ⟨?_, rfl, clearState_clears b update chatID hk⟩
      simp only [NewEditMessageText, deletedText, Sprintf_deleted]

/-- Witness of C4: a session over three records with two of them selected, a
backend that succeeds. -/
theorem yes_deletes_selection_witness :
    ∃ res rest, deleteMovie sampleLib (sampleRadarr 3 none)
        (sampleBot 2 (sampleSession 3 0 [sampleMovie 2, sampleMovie 0]))
        (click DeleteMovieYes) = some res ∧
      res.out = Output.deleteMovies ⟨[3, 1], true, false⟩ :: rest ∧
      (∀ req, Output.deleteMovies req ∉ rest) ∧
      ((sampleRadarr 3 none).DeleteMovies
          (bulkEdit (sampleSession 3 0 [sampleMovie 2, sampleMovie 0])) = none →
        rest = [Output.edit
          ⟨7, 8, "Deleted movies:\n- Movie 2\n- Movie 0", none, "", false⟩] ∧
        res.ret = true ∧
        getDeleteMovieState res.bot 7 = none ∧
        GoMap.get res.bot.UserActiveCommand 7 = none ∧
        GoMap.get res.bot.AddMovieUserStates 7 = none) :=
  yes_deletes_selection sampleLib (sampleRadarr 3 none)
    (sampleBot 2 (sampleSession 3 0 [sampleMovie 2, sampleMovie 0])) (click DeleteMovieYes) 7
    (sampleSession 3 0 [sampleMovie 2, sampleMovie 0]) ⟨7, some ⟨8, 1, 7, ""⟩, DeleteMovieYes⟩
    rfl rfl rfl rfl

/-- C5. When the backend bulk-delete call returns an error, `deleteMovie` on
the Yes token leaves the whole bot state, the session included, as it was,
and sends the error text after the request; a Cancel click that follows
clears the session, the active command and the add-flow state, and edits the
session message to the cleared notice. -/
theorem yes_failure_keeps_session (L : Lib) (r : Radarr) (b : Bot) (update : Update)
    (chatID : Int) (command : userDeleteMovie) (cq : CallbackQuery) (err : String)
    (hk : getChatID update = some chatID) (hg : getDeleteMovieState b chatID = some command)
    (hq : update.CallbackQuery = some cq) (hd : cq.Data = DeleteMovieYes)
    (he : r.DeleteMovies (bulkEdit command) = some err) :
    deleteMovie L r b update
        = some ⟨b, [Output.deleteMovies (bulkEdit command),
                    Output.send command.chatID err], false⟩ ∧
      ∀ (r2 : Radarr) (update2 : Update) (cq2 : CallbackQuery),
        getChatID update2 = some chatID → update2.CallbackQuery = some cq2 →
        cq2.Data = DeleteMovieCancel →
        ∃ res, deleteMovie L r2 b update2 = some res ∧
          res.out = [Output.edit (NewEditMessageText command.chatID command.messageID
            L.CommandsCleared)] ∧
          getDeleteMovieState res.bot chatID = none ∧
          GoMap.get res.bot.UserActiveCommand chatID = none ∧
          GoMap.get res.bot.AddMovieUserStates chatID = none := by
  constructor
  · rw [deleteMovie_yes L r b update chatID command cq hk hg hq hd]
    unfold handleDeleteMovieYes
    simp only [he]
  · intro r2 update2 cq2 hk2 hq2 hd2
    rw [deleteMovie_cancel L r2 b update2 chatID command cq2 hk2 hg hq2 hd2]
    exact ⟨_, rfl, rfl, clearState_clears b update2 chatID hk2⟩

/-- Witness of C5: a session over three records with one selected, a backend
that answers "radarr: 500". -/
theorem yes_failure_keeps_session_witness :
    deleteMovie sampleLib (sampleRadarr 3 (some "radarr: 500"))
        (sampleBot 2 (sampleSession 3 0 [sampleMovie 1])) (click DeleteMovieYes)
      = some ⟨sampleBot 2 (sampleSession 3 0 [sampleMovie 1]),
          [Output.deleteMovies ⟨[2], true, false⟩, Output.send 7 "radarr: 500"], false⟩ :=
  (yes_failure_keeps_session sampleLib (sampleRadarr 3 (some "radarr: 500"))
    (sampleBot 2 (sampleSession 3 0 [sampleMovie 1])) (click DeleteMovieYes) 7
    (sampleSession 3 0 [sampleMovie 1]) ⟨7, some ⟨8, 1, 7, ""⟩, DeleteMovieYes⟩ "radarr: 500"
    rfl rfl rfl rfl rfl).1

/-! ## Page index -/

theorem isInt64_wrap64 (x : Int) : isInt64 (wrap64 x) := by
  unfold isInt64 wrap64
  omega

theorem isInt64_totalPages (movies : List Movie) (pageSize tp : Int)
    (h : totalPages movies pageSize = some tp) : isInt64 tp := by
  unfold totalPages goDiv at h
  split_ifs at h
  injection h with h
  rw [← h]
  exact isInt64_wrap64 _

theorem show_bot (L : Lib) (b : Bot) (command : userDeleteMovie) (res : Handled)
    (h : showDeleteMovieSelection L b command = some res) :
    res.bot = setDeleteMovieState b command.chatID command := by
  unfold showDeleteMovieSelection at h
  cases hm : selectionMessage L b.Config.MaxItems command with
  | none => simp [hm] at h
  | some editMsg =>
    simp [hm] at h
    rw [← h]

/-- The first-page, previous-page and last-page clicks keep the page index
inside the page range. -/
theorem page_in_range_first_prev_last (L : Lib) (r : Radarr) (b : Bot) (update : Update)
    (chatID : Int) (command : userDeleteMovie) (cq : CallbackQuery) (tp : Int) (res : Handled)
    (hk : getChatID update = some chatID) (hg : getDeleteMovieState b chatID = some command)
    (hq : update.CallbackQuery = some cq)
    (hd : cq.Data = DeleteMovieFirstPage ∨ cq.Data = DeleteMoviePreviousPage ∨
      cq.Data = DeleteMovieLastPage)
    (ht : totalPages command.moviesForSelection b.Config.MaxItems = some tp)
    (hp : 0 ≤ command.page ∧ command.page < tp)
    (h : deleteMovie L r b update = some res) :
    ∃ next, getDeleteMovieState res.bot command.chatID = some next ∧
      next.moviesForSelection = command.moviesForSelection ∧
      0 ≤ next.page ∧ next.page < tp := by
  have hr := isInt64_totalPages _ _ _ ht
  unfold isInt64 at hr
  unfold deleteMovie at h
  simp only [hk, hg, hq] at h
  rcases hd with hd | hd | hd
  · simp only [hd] at h
    rw [if_neg (by decide)] at h
    have h : showDeleteMovieSelection L b { command with page := 0 } = some res := by
      rw [← h]
      exact (if_pos trivial).symm
    rw [show_bot L b _ res h, getDeleteMovieState_set]
    exact ⟨_, if_pos rfl, rfl, le_refl _, by show (0 : Int) < tp; omega⟩
  · simp only [hd] at h
    rw [if_neg (by decide), if_neg (by decide)] at h
    have h : showDeleteMovieSelection L b
        (if command.page > 0 then { command with page := goSub command.page 1 }
         else command) = some res := by
      rw [← h]
      exact (if_pos trivial).symm
    rw [show_bot L b _ res h, getDeleteMovieState_set]
    by_cases c : command.page > 0
    · have hs : goSub command.page 1 = command.page - 1 := by
        unfold goSub
        exact wrap64_eq (by unfold isInt64; omega)
      simp only [if_pos c, hs]
      exact ⟨_, if_pos trivial, rfl, by show 0 ≤ command.page - 1; omega,
        by show command.page - 1 < tp; omega⟩
    · simp only [if_neg c]
      exact ⟨_, if_pos trivial, rfl, hp.1, hp.2⟩
  · simp only [hd] at h
    rw [if_neg (by decide), if_neg (by decide), if_neg (by decide), if_neg (by decide)] at h
    have h : showDeleteMovieSelection L b { command with page := goSub tp 1 } = some res := by
      rw [← h, if_pos trivial, ht]
      rfl
    have hs : goSub tp 1 = tp - 1 := by
      unfold goSub
      exact wrap64_eq (by unfold isInt64; omega)
    rw [show_bot L b _ res h, getDeleteMovieState_set]
    simp only [hs]
    exact ⟨_, if_pos trivial, rfl, by show 0 ≤ tp - 1; omega, by show tp - 1 < tp; omega⟩

/-- C1, the code at the failing input. Four records, two per page, page 1 (the
last of 2 pages): a next-page click stores page 2, which is the page count.
With three records the same click makes the render panic on `movies[4:3]`. -/
theorem next_page_past_last :
    totalPages (sampleSession 4 1 []).moviesForSelection 2 = some 2 ∧
      (0 ≤ (sampleSession 4 1 []).page ∧ (sampleSession 4 1 []).page < 2) ∧
      (deleteMovie sampleLib (sampleRadarr 4 none) (sampleBot 2 (sampleSession 4 1 []))
          (click DeleteMovieNextPage)).map (fun res => res.bot)
        = some (sampleBot 2 (sampleSession 4 2 [])) ∧
      deleteMovie sampleLib (sampleRadarr 3 none) (sampleBot 2 (sampleSession 3 1 []))
          (click DeleteMovieNextPage) = none := by
  decide

/-! ## Defensive reset -/

/-- The default branch of the dispatcher never changes the bot. -/
theorem defaultBranch_bot (b : Bot) (cq : CallbackQuery) (res : Bot × List Output)
    (h : Dispatcher.defaultBranch b cq = some res) : res.1 = b := by
  unfold Dispatcher.defaultBranch Dispatcher.callByValue at h
  obtain ⟨m, _, hm⟩ := Option.map_eq_some'.mp h
  rw [← hm]

/-- C6, the code at the failing input. User 7 has the active command
"LISTMOVIES" and a stored state in each flow; a button click of user 7 runs
the default branch, the notice is sent, and all three entries of user 7 are
still there. -/
theorem default_branch_keeps_entries :
    Dispatcher.onCallback sampleLib (sampleRadarr 3 none) (fun _ _ => none) staleBot
        (click "DELETE_MOVIE_CANCEL")
      = some (staleBot, [Output.send 7
          "I am not sure what you mean.\nAll commands have been cleared"]) ∧
      GoMap.get staleBot.UserActiveCommand 7 = some "LISTMOVIES" ∧
      GoMap.get staleBot.AddMovieUserStates 7 = some ⟨[], none, false, none, none, none⟩ ∧
      GoMap.get staleBot.DeleteMovieUserStates 7 = some (sampleSession 3 0 [sampleMovie 1]) := by
  decide

/-! ## Footer and toggle -/

/-- The message of the list view, when it is built, has the shape of
`selectionMessage_eq`. -/
theorem selectionMessage_some (L : Lib) (pageSize : Int) (command : userDeleteMovie)
    (msg : EditMessage) (h : selectionMessage L pageSize command = some msg) :
    ∃ tp rows, totalPages command.moviesForSelection pageSize = some tp ∧
      movieKeyboard command pageSize = some rows ∧
      msg = { ChatID := command.chatID, MessageID := command.messageID,
              Text := selectionText L command.page tp,
              ReplyMarkup := some (rows
                ++ paginationRows command.moviesForSelection command.page pageSize tp
                ++ keyboardConfirmCancel command.selectedMovies),
              ParseMode := "MarkdownV2", DisableWebPagePreview := true } := by
  cases ht : totalPages command.moviesForSelection pageSize with
  | none =>
    unfold selectionMessage at h
    simp [ht] at h
  | some tp =>
    cases hk : movieKeyboard command pageSize with
    | none =>
      unfold selectionMessage at h
      simp [ht, hk] at h
    | some rows =>
      rw [selectionMessage_eq L pageSize command tp rows ht hk] at h
      injection h with h
      exact ⟨tp, rows, rfl, rfl, h.symm⟩

theorem len_pos_iff {α : Type} (s : List α) : len s > 0 ↔ s ≠ [] := by
  unfold len
  cases s with
  | nil => simp
  | cons a t =>
    simp only [List.length_cons, ne_eq, reduceCtorEq, not_false_eq_true, iff_true]
    omega

/-- C11. Whenever the list view is built, its keyboard ends with the footer,
and the footer buttons carry exactly the tokens Submit and Cancel when the
selection is non-empty and exactly Cancel otherwise; a Submit button is in the
footer iff the selection is non-empty. -/
theorem footer_tokens (L : Lib) (pageSize : Int) (command : userDeleteMovie)
    (msg : EditMessage) (h : selectionMessage L pageSize command = some msg) :
    (∃ body, msg.ReplyMarkup = some (body ++ keyboardConfirmCancel command.selectedMovies)) ∧
      keyboardTokens (keyboardConfirmCancel command.selectedMovies)
        = (if command.selectedMovies ≠ [] then [DeleteMovieConfirm, DeleteMovieCancel]
           else [DeleteMovieCancel]) ∧
      (DeleteMovieConfirm ∈ keyboardTokens (keyboardConfirmCancel command.selectedMovies)
        ↔ command.selectedMovies ≠ []) := by
  obtain ⟨tp, rows, _, _, hmsg⟩ := selectionMessage_some L pageSize command msg h
  have ht : keyboardTokens (keyboardConfirmCancel command.selectedMovies)
      = (if command.selectedMovies ≠ [] then [DeleteMovieConfirm, DeleteMovieCancel]
         else [DeleteMovieCancel]) := by
    unfold keyboardConfirmCancel
    by_cases c : command.selectedMovies ≠ []
    · rw [if_pos ((len_pos_iff _).mpr c), if_pos c]
      rfl
    · rw [if_neg (fun hc => c ((len_pos_iff _).mp hc)), if_neg c]
      rfl
  refine ⟨⟨_, by rw [hmsg]⟩, ht, ?_⟩
  rw [ht]
  by_cases c : command.selectedMovies ≠ []
  · rw [if_pos c]
    exact ⟨fun _ => c, fun _ => List.mem_cons_self _ _⟩
  · rw [if_neg c]
    constructor
    · intro hm
      exact absurd hm (by decide)
    · intro hc
      exact absurd hc c

/-- Witness of C11: the list view of a session over three records with one
selected carries Submit and Cancel in its footer. -/
theorem footer_tokens_witness :
    (∃ body, (⟨7, 8, "Select the movie(s) you want to delete - page 1/2",
        some [[⟨"Movie 0", "DELETE_MOVIE_TMDBID_100"⟩],
              [⟨"Movie 1 ✅", "DELETE_MOVIE_TMDBID_101"⟩],
              [⟨"1/2", "current_page"⟩, ⟨"▶️", DeleteMovieNextPage⟩,
               ⟨"⏭️", DeleteMovieLastPage⟩],
              [⟨"Submit - Confirm Movies", DeleteMovieConfirm⟩,
               ⟨"Cancel - clear command", DeleteMovieCancel⟩]],
        "MarkdownV2", true⟩ : EditMessage).ReplyMarkup
          = some (body ++ keyboardConfirmCancel (sampleSession 3 0 [sampleMovie 1]).selectedMovies)) ∧
      keyboardTokens (keyboardConfirmCancel (sampleSession 3 0 [sampleMovie 1]).selectedMovies)
        = [DeleteMovieConfirm, DeleteMovieCancel] ∧
      (DeleteMovieConfirm
          ∈ keyboardTokens (keyboardConfirmCancel (sampleSession 3 0 [sampleMovie 1]).selectedMovies)
        ↔ (sampleSession 3 0 [sampleMovie 1]).selectedMovies ≠ []) :=
  footer_tokens sampleLib 2 (sampleSession 3 0 [sampleMovie 1]) _ (by decide)

/-- C13. The row-click toggle returns, when the local id of the record is in
the selection, the selection without the entries of that id, the others in
their original order; and, when it is not, the selection with the record
appended as its last element. -/
theorem toggle_definition (selectedMovies : List Movie) (movie : Movie) :
    toggleSelection selectedMovies movie
      = (if movie.ID ∈ localIDs selectedMovies then
           selectedMovies.filter (fun selected => decide (selected.ID ≠ movie.ID))
         else selectedMovies ++ [movie]) := by
  unfold toggleSelection
  by_cases c : movie.ID ∈ localIDs selectedMovies
  · rw [if_pos ((isSelectedMovie_iff _ _).mpr c), if_pos c, removeMovie_eq_filter]
  · rw [if_neg (fun h => c ((isSelectedMovie_iff _ _).mp h)), if_neg c]

/-! ## Row tokens and Submit -/

theorem HasPrefix_append (p s : String) : HasPrefix (p ++ s) p = true := by
  unfold HasPrefix
  rw [String.data_append, List.isPrefixOf_iff_prefix]
  exact List.prefix_append _ _

/-- A row token is none of the fixed literal tokens. -/
theorem row_token_not_literal (s : String) : DeleteMovieTMDBID ++ s ∉ literalTokens := by
  intro h
  have hp := HasPrefix_append DeleteMovieTMDBID s
  generalize DeleteMovieTMDBID ++ s = t at h hp
  have hall : ∀ lit ∈ literalTokens, HasPrefix lit DeleteMovieTMDBID = false := by decide
  rw [hall t h] at hp
  exact absurd hp (by decide)

theorem yes_not_in_rows (selectedMovies shown : List Movie) :
    DeleteMovieYes ∉ keyboardTokens (shown.map (movieRow selectedMovies)) := by
  intro h
  unfold keyboardTokens at h
  rw [List.mem_map] at h
  obtain ⟨button, hb, ht⟩ := h
  rw [List.mem_flatten] at hb
  obtain ⟨row, hr, hbr⟩ := hb
  rw [List.mem_map] at hr
  obtain ⟨movie, _, hm⟩ := hr
  rw [← hm] at hbr
  unfold movieRow at hbr
  simp only [List.mem_singleton] at hbr
  rw [hbr] at ht
  simp only at ht
  exact row_token_not_literal (Itoa movie.TmdbID) (by rw [ht]; decide)

theorem yes_not_in_pagination (movies : List Movie) (page pageSize tp : Int) :
    DeleteMovieYes ∉ keyboardTokens (paginationRows movies page pageSize tp) := by
  unfold paginationRows paginationButtons keyboardTokens
  split_ifs <;> simp <;> decide

theorem keyboardTokens_append (a b : Keyboard) :
    keyboardTokens (a ++ b) = keyboardTokens a ++ keyboardTokens b := by
  unfold keyboardTokens
  rw [List.flatten_append, List.map_append]

/-- The dispatch of `deleteMovie` on the Submit token. -/
theorem deleteMovie_submit (L : Lib) (r : Radarr) (b : Bot) (update : Update) (chatID : Int)
    (command : userDeleteMovie) (cq : CallbackQuery)
    (hk : getChatID update = some chatID) (hg : getDeleteMovieState b chatID = some command)
    (hq : update.CallbackQuery = some cq) (hd : cq.Data = DeleteMovieConfirm) :
    deleteMovie L r b update = processMovieSelectionForDelete L b command := by
  unfold deleteMovie
  simp only [hk, hg, hq, hd]
  rw [if_neg (by decide), if_neg (by decide), if_neg (by decide), if_neg (by decide),
    if_neg (by decide)]
  exact if_pos trivial

/-- C18. With an empty selection, the Submit token makes `deleteMovie` do what
`showDeleteMovieSelection` does at the current page: same result, the session
stored as it was (page, candidate list and selection unchanged), one edit
with the list view, and no button with the Yes token; inside the page range
this result is produced. -/
theorem submit_with_empty_selection (L : Lib) (r : Radarr) (b : Bot) (update : Update)
    (chatID : Int) (command : userDeleteMovie) (cq : CallbackQuery)
    (hk : getChatID update = some chatID) (hg : getDeleteMovieState b chatID = some command)
    (hq : update.CallbackQuery = some cq) (hd : cq.Data = DeleteMovieConfirm)
    (he : len command.selectedMovies = 0) :
    deleteMovie L r b update = showDeleteMovieSelection L b command ∧
      (∀ res, deleteMovie L r b update = some res →
        getDeleteMovieState res.bot command.chatID = some command ∧
        ∃ msg keyboard, res.out = [Output.edit msg] ∧
          selectionMessage L b.Config.MaxItems command = some msg ∧
          msg.ReplyMarkup = some keyboard ∧
          DeleteMovieYes ∉ keyboardTokens keyboard) ∧
      (∀ tp, 1 ≤ b.Config.MaxItems → isInt64 b.Config.MaxItems →
        isInt64 (len command.moviesForSelection) →
        totalPages command.moviesForSelection b.Config.MaxItems = some tp →
        (0 ≤ command.page ∧ command.page < tp) →
        ∃ res, deleteMovie L r b update = some res) := by
  have hnil : command.selectedMovies = [] := by
    cases hs : command.selectedMovies with
    | nil => rfl
    | cons a t =>
      rw [hs] at he
      unfold len at he
      simp only [List.length_cons] at he
      omega
  have heq : deleteMovie L r b update = showDeleteMovieSelection L b command := by
    rw [deleteMovie_submit L r b update chatID command cq hk hg hq hd]
    unfold processMovieSelectionForDelete
    rw [hnil]
  refine ⟨heq, ?_, ?_⟩
  · intro res hres
    rw [heq] at hres
    have hb := show_bot L b command res hres
    unfold showDeleteMovieSelection at hres
    cases hm : selectionMessage L b.Config.MaxItems command with
    | none => simp [hm] at hres
    | some msg =>
      simp [hm] at hres
      obtain ⟨tp, rows, _, hrows, hmsg⟩ := selectionMessage_some L _ command msg hm
      refine ⟨?_, msg, _, ?_, rfl, by rw [hmsg], ?_⟩
      · rw [hb, getDeleteMovieState_set]
        exact if_pos rfl
      · rw [← hres]
      · rw [keyboardTokens_append, keyboardTokens_append, List.mem_append, List.mem_append]
        rintro ((h | h) | h)
        · unfold movieKeyboard at hrows
          obtain ⟨shown, _, hsh⟩ := Option.map_eq_some'.mp hrows
          rw [← hsh] at h
          exact yes_not_in_rows _ _ h
        · exact yes_not_in_pagination _ _ _ _ h
        · rw [hnil] at h
          exact absurd h (by decide)
  · intro tp h1 h2 h3 ht hp
    obtain ⟨shown, hs⟩ := pageSlice_isSome command.moviesForSelection b.Config.MaxItems
      command.page tp h1 h2 h3 ht hp
    have hkb : movieKeyboard command b.Config.MaxItems
        = some (shown.map (movieRow command.selectedMovies)) := by
      unfold movieKeyboard
      rw [hs]
      rfl
    rw [heq]
    unfold showDeleteMovieSelection
    rw [selectionMessage_eq L _ command tp _ ht hkb]
    exact ⟨_, rfl⟩

/-- Witness of C18: a session over three records, page 0, nothing selected. -/
theorem submit_with_empty_selection_witness :
    deleteMovie sampleLib (sampleRadarr 3 none) (sampleBot 2 (sampleSession 3 0 []))
        (click DeleteMovieConfirm)
      = showDeleteMovieSelection sampleLib (sampleBot 2 (sampleSession 3 0 []))
          (sampleSession 3 0 []) ∧
    ∃ res, deleteMovie sampleLib (sampleRadarr 3 none) (sampleBot 2 (sampleSession 3 0 []))
        (click DeleteMovieConfirm) = some res :=
  have h := submit_with_empty_selection sampleLib (sampleRadarr 3 none)
    (sampleBot 2 (sampleSession 3 0 [])) (click DeleteMovieConfirm) 7 (sampleSession 3 0 [])
    ⟨7, some ⟨8, 1, 7, ""⟩, DeleteMovieConfirm⟩ rfl rfl rfl rfl rfl
  ⟨h.1, h.2.2 2 (by decide) (by decide) (by decide) (by decide) (by decide)⟩

/-! ## Unknown catalog id -/

/-- C19, the code at the failing input. The session knows the catalog ids 100
to 102; a click whose token is the row-select prefix followed by 999 finds no
entry in `command.library`, and `movie.ID` dereferences nil: neither
`handleDeleteMovieSelection` nor `deleteMovie` returns. -/
theorem unknown_row_click_panics :
    HasPrefix "DELETE_MOVIE_TMDBID_999" DeleteMovieTMDBID = true ∧
      GoMap.get (sampleSession 3 0 []).library
        (TrimPrefix "DELETE_MOVIE_TMDBID_999" DeleteMovieTMDBID) = none ∧
      handleDeleteMovieSelection sampleLib (sampleBot 2 (sampleSession 3 0 []))
        "DELETE_MOVIE_TMDBID_999" (sampleSession 3 0 []) = none ∧
      deleteMovie sampleLib (sampleRadarr 3 none) (sampleBot 2 (sampleSession 3 0 []))
        (click "DELETE_MOVIE_TMDBID_999") = none := by
  decide

/-! ## Search results -/

/-- C14, the code at the failing input. The library holds three records; the
delete command carries the search text "alien" and the lookup answers one
catalog hit without a local id. The flow ends with the message "No movies
found in your library", and the session that `processDeleteCommand` stored
before the lookup (full library, empty selection, page 0) is still stored for
chat 7. -/
theorem no_library_match_keeps_session :
    len [catalogOnly] ≠ 0 ∧ len [catalogOnly] ≤ 25 ∧ moviesInLibrary [catalogOnly] = [] ∧
      getDeleteMovieState (sampleStart 2) 7 = none ∧
      processDeleteCommand sampleLib (searchRadarr 3 [catalogOnly]) (sampleStart 2)
          (deleteCommand "alien") 7 sentMessage
        = some (sampleBot 2 (sampleSession 3 0 []),
            [Output.send 7 "Handling delete command... please wait",
             Output.edit ⟨7, 8, "No movies found in your library", none, "", false⟩]) ∧
      getDeleteMovieState (sampleBot 2 (sampleSession 3 0 [])) 7
        = some (sampleSession 3 0 []) := by
  decide

theorem Sprintf_confirm (a b c : String) :
    Sprintf "[%v](https://www.imdb.com/title/%v) \\- _%v_\n" [a, b, c]
      = "[" ++ a ++ "](https://www.imdb.com/title/" ++ b ++ ") \\- _" ++ c ++ "_\n" := by
  apply String.ext
  simp [Sprintf, sprintfAux]

/-- C15. When the lookup result has at most 25 entries and exactly one of
them, `movie`, has a non-zero local id, `handleDeleteSearchResults` sends one
edit, the confirmation render: the keyboard carries the tokens Yes, Cancel
and Back, the text names that record; and the session stored afterwards has
the selection `[movie]`, everything else as it was. -/
theorem single_match_confirms (L : Lib) (b : Bot) (searchResults : List Movie)
    (command : userDeleteMovie) (movie : Movie)
    (hl : len searchResults ≤ 25) (hm : moviesInLibrary searchResults = [movie]) :
    ∃ bot keyboard, handleDeleteSearchResults L b searchResults command = some (bot,
        [Output.edit
          { ChatID := command.chatID, MessageID := command.messageID,
            Text := "Do you want to delete the following movie including all files?\n\n"
              ++ ("[" ++ L.Escape movie.Title ++ "](https://www.imdb.com/title/"
                ++ movie.ImdbID ++ ") \\- _" ++ Itoa movie.Year ++ "_\n"),
            ReplyMarkup := some keyboard,
            ParseMode := "MarkdownV2", DisableWebPagePreview := false }]) ∧
      keyboardTokens keyboard = [DeleteMovieYes, DeleteMovieCancel, DeleteMovieGoBack] ∧
      getDeleteMovieState bot command.chatID
        = some { command with selectedMovies := [movie] } := by
  have hne : ¬ len searchResults = 0 := by
    intro h0
    unfold len at h0
    have hnil : searchResults = [] := List.length_eq_zero.mp (by omega)
    rw [hnil] at hm
    exact absurd hm (by simp [moviesInLibrary])
  refine ⟨setDeleteMovieState
      (setDeleteMovieState b command.chatID { command with selectedMovies := [movie] })
      command.chatID { command with selectedMovies := [movie] },
    confirmKeyboard "Yes, delete this movie", ?_, rfl, ?_⟩
  · unfold handleDeleteSearchResults
    rw [if_neg hne, if_neg (by omega), hm]
    simp only [processMovieSelectionForDelete, confirmLine, Sprintf_confirm, Option.map_some']
  · rw [getDeleteMovieState_set]
    exact if_pos rfl

/-- Witness of C15: the lookup answers a catalog hit without a local id and
the second record of the library. -/
theorem single_match_confirms_witness :
    ∃ bot keyboard, handleDeleteSearchResults sampleLib (sampleBot 2 (sampleSession 3 0 []))
        [catalogOnly, sampleMovie 1] (sampleSession 3 0 []) = some (bot,
        [Output.edit
          { ChatID := 7, MessageID := 8,
            Text := "Do you want to delete the following movie including all files?\n\n"
              ++ "[Movie 1](https://www.imdb.com/title/tt1) \\- _2000_\n",
            ReplyMarkup := some keyboard,
            ParseMode := "MarkdownV2", DisableWebPagePreview := false }]) ∧
      keyboardTokens keyboard = [DeleteMovieYes, DeleteMovieCancel, DeleteMovieGoBack] ∧
      getDeleteMovieState bot 7 = some (sampleSession 3 0 [sampleMovie 1]) :=
  single_match_confirms sampleLib (sampleBot 2 (sampleSession 3 0 []))
    [catalogOnly, sampleMovie 1] (sampleSession 3 0 []) (sampleMovie 1) (by decide) (by decide)

/-! ## Order of the titles -/

theorem ltChars_asymm (a b : List Char) (h : ltChars a b = true) : ltChars b a = false := by
  induction a generalizing b with
  | nil =>
    cases b with
    | nil => rfl
    | cons y ys => rfl
  | cons x xs ih =>
    cases b with
    | nil => simp [ltChars] at h
    | cons y ys =>
      unfold ltChars at h ⊢
      by_cases c1 : x.toNat < y.toNat
      · rw [if_neg (by omega), if_pos c1]
      · rw [if_neg c1] at h
        by_cases c2 : y.toNat < x.toNat
        · rw [if_pos c2] at h
          exact absurd h (by simp)
        · rw [if_neg c2] at h
          rw [if_neg c2, if_neg c1]
          exact ih ys h

theorem ltChars_le_trans (a b c : List Char) (h1 : ltChars b a = false)
    (h2 : ltChars c b = false) : ltChars c a = false := by
  induction a generalizing b c with
  | nil =>
    cases c with
    | nil => rfl
    | cons z zs => rfl
  | cons x xs ih =>
    cases b with
    | nil => simp [ltChars] at h1
    | cons y ys =>
      cases c with
      | nil => simp [ltChars] at h2
      | cons z zs =>
        unfold ltChars at h1 h2 ⊢
        by_cases c1 : y.toNat < x.toNat
        · rw [if_pos c1] at h1
          exact absurd h1 (by simp)
        · rw [if_neg c1] at h1
          by_cases c2 : z.toNat < y.toNat
          · rw [if_pos c2] at h2
            exact absurd h2 (by simp)
          · rw [if_neg c2] at h2
            by_cases c3 : x.toNat < y.toNat
            · rw [if_neg (by omega), if_pos (by omega)]
            · rw [if_neg c3] at h1
              by_cases c4 : y.toNat < z.toNat
              · rw [if_neg (by omega), if_pos (by omega)]
              · rw [if_neg c4] at h2
                rw [if_neg (by omega), if_neg (by omega)]
                exact ih ys zs h1 h2

theorem Char.toNat_inj (x y : Char) (h : x.toNat = y.toNat) : x = y := by
  apply Char.eq_of_val_eq
  unfold Char.toNat at h
  exact UInt32.ext h

theorem ltChars_antisymm (a b : List Char) (h1 : ltChars a b = false)
    (h2 : ltChars b a = false) : a = b := by
  induction a generalizing b with
  | nil =>
    cases b with
    | nil => rfl
    | cons y ys => simp [ltChars] at h1
  | cons x xs ih =>
    cases b with
    | nil => simp [ltChars] at h2
    | cons y ys =>
      unfold ltChars at h1 h2
      by_cases c1 : x.toNat < y.toNat
      · rw [if_pos c1] at h1
        exact absurd h1 (by simp)
      · rw [if_neg c1] at h1 h2
        by_cases c2 : y.toNat < x.toNat
        · rw [if_pos c2] at h2
          exact absurd h2 (by simp)
        · rw [if_neg c2] at h1 h2
          rw [Char.toNat_inj x y (by omega), ih ys h1 h2]

theorem sortByTitle_perm (L : Lib) (movies : List Movie) : (sortByTitle L movies).Perm movies :=
  List.perm_insertionSort _ movies

theorem sortByTitle_sorted (L : Lib) (movies : List Movie) :
    (sortByTitle L movies).Sorted (fun a b => titleLess L b a = false) := by
  haveI : IsTotal Movie (fun a b => titleLess L b a = false) := ⟨fun a b => by
    cases h : titleLess L b a with
    | false => exact Or.inl rfl
    | true => exact Or.inr (ltChars_asymm _ _ h)⟩
  haveI : IsTrans Movie (fun a b => titleLess L b a = false) := ⟨fun a b c h1 h2 =>
    ltChars_le_trans _ _ _ h1 h2⟩
  exact List.sorted_insertionSort _ movies

/-- Two sorted lists with the same elements are equal when the order is
antisymmetric on these elements. -/
theorem sorted_perm_unique {α : Type} (r : α → α → Prop) (l1 l2 : List α)
    (hanti : ∀ a ∈ l1, ∀ b ∈ l1, r a b → r b a → a = b) (hp : l1.Perm l2)
    (h1 : l1.Sorted r) (h2 : l2.Sorted r) : l1 = l2 := by
  induction l1 generalizing l2 with
  | nil => exact (List.Perm.nil_eq hp)
  | cons a t ih =>
    cases l2 with
    | nil => exact absurd (List.Perm.eq_nil hp) (List.cons_ne_nil a t)
    | cons b u =>
      have ha : a ∈ b :: u := hp.subset (List.mem_cons_self _ _)
      have hb : b ∈ a :: t := hp.symm.subset (List.mem_cons_self _ _)
      have hab : a = b := by
        rcases List.mem_cons.mp ha with e | hau
        · exact e
        · rcases List.mem_cons.mp hb with e | hbt
          · exact e.symm
          · exact hanti a (List.mem_cons_self _ _) b hb
              (List.rel_of_sorted_cons h1 b hbt) (List.rel_of_sorted_cons h2 a hau)
      subst hab
      rw [ih u (fun x hx y hy => hanti x (List.mem_cons_of_mem _ hx) y
        (List.mem_cons_of_mem _ hy)) (List.Perm.cons_inv hp) h1.of_cons h2.of_cons]

/-- The sorted form of a selection does not depend on the click order when
the title keys are pairwise distinct. -/
theorem sortByTitle_eq_of_perm (L : Lib) (l1 l2 : List Movie) (hp : l1.Perm l2)
    (hk : (l2.map (titleKey L)).Nodup) : sortByTitle L l1 = sortByTitle L l2 := by
  have p1 := sortByTitle_perm L l1
  have p2 := sortByTitle_perm L l2
  refine sorted_perm_unique (fun a b => titleLess L b a = false) _ _ ?_
    (p1.trans (hp.trans p2.symm)) (sortByTitle_sorted L l1) (sortByTitle_sorted L l2)
  intro a ha b hb hab hba
  have ha2 : a ∈ l2 := hp.subset (p1.subset ha)
  have hb2 : b ∈ l2 := hp.subset (p1.subset hb)
  have hkey : titleKey L a = titleKey L b :=
    String.ext (ltChars_antisymm _ _ hba hab)
  exact List.inj_on_of_nodup_map hk ha2 hb2 hkey

/-- C16, the code at the failing input. The library holds three records; the
delete command carries a search text and the lookup answers the third and the
first record, in this order. The candidate list of the stored session is the
lookup result as it came, with "Movie 2" before "Movie 0": the list is not
sorted by the title key. -/
theorem search_candidates_not_sorted :
    (processDeleteCommand sampleLib (searchRadarr 3 [sampleMovie 2, sampleMovie 0])
        (sampleStart 2) (deleteCommand "movie") 7 sentMessage).map
          (fun res => (getDeleteMovieState res.1 7).map (fun c => c.moviesForSelection))
      = some (some [sampleMovie 2, sampleMovie 0]) ∧
      titleLess sampleLib (sampleMovie 0) (sampleMovie 2) = true ∧
      sortByTitle sampleLib [sampleMovie 2, sampleMovie 0] = [sampleMovie 0, sampleMovie 2] := by
  decide

/-- The confirmation of two or more selected records. -/
theorem process_many (L : Lib) (b : Bot) (command : userDeleteMovie)
    (h : 2 ≤ command.selectedMovies.length) :
    processMovieSelectionForDelete L b command = some
      ⟨setDeleteMovieState b command.chatID
          { command with selectedMovies := sortByTitle L command.selectedMovies },
        [Output.edit
          { ChatID := command.chatID, MessageID := command.messageID,
            Text := "Do you want to delete the following movies including all files?\n\n"
              ++ String.join ((sortByTitle L command.selectedMovies).map (confirmLine L)),
            ReplyMarkup := some (confirmKeyboard "Yes, delete these movies"),
            ParseMode := "MarkdownV2", DisableWebPagePreview := true }], false⟩ := by
  unfold processMovieSelectionForDelete
  split
  · rename_i e
    rw [e] at h
    simp at h
  · rename_i movie e
    rw [e] at h
    simp at h
  · rename_i x y rest e
    simp only [e]

/-- C17. For a selection of two or more records, the confirmation edit built
by `processMovieSelectionForDelete` has as text the header followed by one
line per record of the sorted selection; the sorted selection is a
permutation of the selection and is ordered non-decreasingly by the title
key; and a session that holds the same records in another order, their title
keys pairwise distinct, gives the same calls. -/
theorem confirmation_in_title_order (L : Lib) (b : Bot) (command : userDeleteMovie)
    (h : 2 ≤ command.selectedMovies.length) :
    (∃ bot keyboard, processMovieSelectionForDelete L b command = some ⟨bot,
        [Output.edit
          { ChatID := command.chatID, MessageID := command.messageID,
            Text := "Do you want to delete the following movies including all files?\n\n"
              ++ String.join ((sortByTitle L command.selectedMovies).map (confirmLine L)),
            ReplyMarkup := some keyboard,
            ParseMode := "MarkdownV2", DisableWebPagePreview := true }], false⟩) ∧
      (sortByTitle L command.selectedMovies).Perm command.selectedMovies ∧
      (sortByTitle L command.selectedMovies).Sorted (fun a c => titleLess L c a = false) ∧
      (∀ other : userDeleteMovie, other.selectedMovies.Perm command.selectedMovies →
        (command.selectedMovies.map (titleKey L)).Nodup →
        other.chatID = command.chatID → other.messageID = command.messageID →
        (processMovieSelectionForDelete L b other).map (fun res => res.out)
          = (processMovieSelectionForDelete L b command).map (fun res => res.out)) := by
  refine ⟨⟨_, _, process_many L b command h⟩, sortByTitle_perm L _, sortByTitle_sorted L _, ?_⟩
  intro other hp hk hc hm
  have ho : 2 ≤ other.selectedMovies.length := by
    rw [hp.length_eq]
    exact h
  rw [process_many L b command h, process_many L b other ho,
    sortByTitle_eq_of_perm L _ _ hp hk, hc, hm]
  rfl

/-- Witness of C17: the third and the first sample record, clicked in this
order, are listed first record first. -/
theorem confirmation_in_title_order_witness :
    ∃ bot keyboard, processMovieSelectionForDelete sampleLib
        (sampleBot 2 (sampleSession 3 0 [sampleMovie 2, sampleMovie 0]))
        (sampleSession 3 0 [sampleMovie 2, sampleMovie 0]) = some ⟨bot,
        [Output.edit
          { ChatID := 7, MessageID := 8,
            Text := "Do you want to delete the following movies including all files?\n\n"
              ++ "[Movie 0](https://www.imdb.com/title/tt0) \\- _2000_\n"
              ++ "[Movie 2](https://www.imdb.com/title/tt2) \\- _2000_\n",
            ReplyMarkup := some keyboard,
            ParseMode := "MarkdownV2", DisableWebPagePreview := true }], false⟩ :=
  (confirmation_in_title_order sampleLib
    (sampleBot 2 (sampleSession 3 0 [sampleMovie 2, sampleMovie 0]))
    (sampleSession 3 0 [sampleMovie 2, sampleMovie 0]) (by decide)).1

/-! ## Decimal form of the catalog id -/

theorem digitChar_val (k : Nat) (h : k < 10) : (Nat.digitChar k).toNat - 48 = k := by
  interval_cases k <;> rfl

theorem digitChar_ne_minus (k : Nat) (h : k < 10) : Nat.digitChar k ≠ '-' := by
  interval_cases k <;> decide

theorem decode_toDigitsCore (fuel n : Nat) (ds : List Char) (h : n < fuel) :
    (Nat.toDigitsCore 10 fuel n ds).foldl (fun acc c => 10 * acc + (c.toNat - 48)) 0
      = ds.foldl (fun acc c => 10 * acc + (c.toNat - 48)) n := by
  induction fuel generalizing n ds with
  | zero => omega
  | succ fuel ih =>
    unfold Nat.toDigitsCore
    simp only
    by_cases c : n / 10 = 0
    · rw [if_pos c, List.foldl_cons, digitChar_val _ (Nat.mod_lt _ (by omega))]
      congr 1
      omega
    · rw [if_neg c, ih (n / 10) _ (by omega), List.foldl_cons,
        digitChar_val _ (Nat.mod_lt _ (by omega))]
      congr 1
      omega

theorem Nat_repr_injective (a b : Nat) (h : Nat.repr a = Nat.repr b) : a = b := by
  unfold Nat.repr Nat.toDigits at h
  have hd : Nat.toDigitsCore 10 (a + 1) a [] = Nat.toDigitsCore 10 (b + 1) b [] := by
    have := congrArg String.data h
    simpa [List.asString] using this
  have ha := decode_toDigitsCore (a + 1) a [] (by omega)
  have hb := decode_toDigitsCore (b + 1) b [] (by omega)
  rw [hd, hb] at ha
  simpa using ha.symm

theorem toDigitsCore_chars (fuel n : Nat) (ds : List Char) (c : Char)
    (h : c ∈ Nat.toDigitsCore 10 fuel n ds) : c ∈ ds ∨ ∃ k, k < 10 ∧ c = Nat.digitChar k := by
  induction fuel generalizing n ds with
  | zero => exact Or.inl h
  | succ fuel ih =>
    unfold Nat.toDigitsCore at h
    simp only at h
    by_cases e : n / 10 = 0
    · rw [if_pos e] at h
      rcases List.mem_cons.mp h with h | h
      · exact Or.inr ⟨n % 10, Nat.mod_lt _ (by omega), h⟩
      · exact Or.inl h
    · rw [if_neg e] at h
      rcases ih _ _ h with h | h
      · rcases List.mem_cons.mp h with h | h
        · exact Or.inr ⟨n % 10, Nat.mod_lt _ (by omega), h⟩
        · exact Or.inl h
      · exact Or.inr h

theorem minus_not_in_repr (a : Nat) : '-' ∉ (Nat.repr a).data := by
  intro h
  unfold Nat.repr Nat.toDigits at h
  simp only [List.asString] at h
  rcases toDigitsCore_chars _ _ _ _ h with h | ⟨k, hk, h⟩
  · simp at h
  · exact digitChar_ne_minus k hk h.symm

/-- Two integers with the same decimal form are equal. -/
theorem Itoa_injective (x y : Int) (h : Itoa x = Itoa y) : x = y := by
  unfold Itoa at h
  by_cases cx : x < 0 <;> by_cases cy : y < 0
  · rw [if_pos cx, if_pos cy] at h
    have hd := congrArg String.data h
    simp only [String.data_append, List.append_cancel_left_eq] at hd
    have := Nat_repr_injective _ _ (String.ext hd)
    omega
  · rw [if_pos cx, if_neg cy] at h
    have hm : '-' ∈ (Nat.repr y.natAbs).data := by
      rw [← h, String.data_append]
      exact List.mem_append_left _ (by decide)
    exact absurd hm (minus_not_in_repr _)
  · rw [if_neg cx, if_pos cy] at h
    have hm : '-' ∈ (Nat.repr x.natAbs).data := by
      rw [h, String.data_append]
      exact List.mem_append_left _ (by decide)
    exact absurd hm (minus_not_in_repr _)
  · rw [if_neg cx, if_neg cy] at h
    have := Nat_repr_injective _ _ h
    omega

theorem TrimPrefix_append (p s : String) : TrimPrefix (p ++ s) p = s := by
  unfold TrimPrefix
  rw [if_pos (HasPrefix_append p s)]
  apply String.ext
  simp [String.data_append]

/-! ## Row encoding -/

theorem get_foldl_other (movies : List Movie) (library : GoMap String Movie) (k : String)
    (h : ∀ movie ∈ movies, Itoa movie.TmdbID ≠ k) :
    GoMap.get (movies.foldl
      (fun library movie => GoMap.set library (Itoa movie.TmdbID) movie) library) k
      = GoMap.get library k := by
  induction movies generalizing library with
  | nil => rfl
  | cons x xs ih =>
    rw [List.foldl_cons, ih _ (fun movie hm => h movie (List.mem_cons_of_mem _ hm)),
      GoMap.get_set, if_neg (h x (List.mem_cons_self _ _))]

theorem get_foldl_member (movies : List Movie) (library : GoMap String Movie) (m : Movie)
    (hnd : (movies.map (fun movie => movie.TmdbID)).Nodup) (hm : m ∈ movies) :
    GoMap.get (movies.foldl
      (fun library movie => GoMap.set library (Itoa movie.TmdbID) movie) library)
      (Itoa m.TmdbID) = some m := by
  induction movies generalizing library with
  | nil => exact absurd hm (List.not_mem_nil _)
  | cons x xs ih =>
    rw [List.map_cons, List.nodup_cons] at hnd
    rw [List.foldl_cons]
    rcases List.mem_cons.mp hm with e | hxs
    · subst e
      rw [get_foldl_other, GoMap.get_set, if_pos rfl]
      intro movie hmovie he
      exact hnd.1 (List.mem_map.mpr ⟨movie, hmovie, Itoa_injective _ _ he⟩)
    · exact ih _ hnd.2 hxs

/-- The catalog index resolves the decimal catalog id of a library record to
that record, when the catalog ids of the library are pairwise distinct. -/
theorem get_buildLibrary (movies : List Movie) (m : Movie)
    (hnd : (movies.map (fun movie => movie.TmdbID)).Nodup) (hm : m ∈ movies) :
    GoMap.get (buildLibrary movies) (Itoa m.TmdbID) = some m :=
  get_foldl_member movies [] m hnd hm

/-- The dispatch of `deleteMovie` on a row token. -/
theorem deleteMovie_row (L : Lib) (r : Radarr) (b : Bot) (update : Update) (chatID : Int)
    (command : userDeleteMovie) (cq : CallbackQuery) (s : String)
    (hk : getChatID update = some chatID) (hg : getDeleteMovieState b chatID = some command)
    (hq : update.CallbackQuery = some cq) (hd : cq.Data = DeleteMovieTMDBID ++ s) :
    deleteMovie L r b update = handleDeleteMovieSelection L b cq.Data command := by
  have hn : cq.Data ∉ literalTokens := by
    rw [hd]
    exact row_token_not_literal s
  have hp : HasPrefix cq.Data DeleteMovieTMDBID = true := by
    rw [hd]
    exact HasPrefix_append _ _
  unfold deleteMovie
  simp only [hk, hg, hq]
  rw [if_neg (fun e => hn (by rw [e]; decide)), if_neg (fun e => hn (by rw [e]; decide)),
    if_neg (fun e => hn (by rw [e]; decide)), if_neg (fun e => hn (by rw [e]; decide)),
    if_neg (fun e => hn (by rw [e]; decide)), if_neg (fun e => hn (by rw [e]; decide)),
    if_neg (fun e => hn (by rw [e]; decide)), if_neg (fun e => hn (by rw [e]; decide)),
    if_neg (fun e => hn (by rw [e]; decide)), if_pos hp]

theorem handleDeleteMovieSelection_eq (L : Lib) (b : Bot) (data : String)
    (command : userDeleteMovie) (movie : Movie)
    (h : GoMap.get command.library (TrimPrefix data DeleteMovieTMDBID) = some movie) :
    handleDeleteMovieSelection L b data command
      = showDeleteMovieSelection L
          (setDeleteMovieState b command.chatID
            { command with selectedMovies := toggleSelection command.selectedMovies movie })
          { command with selectedMovies := toggleSelection command.selectedMovies movie } := by
  unfold handleDeleteMovieSelection
  simp only [h, Option.bind_eq_bind, Option.some_bind]

/-- C12, as amended. For a session whose catalog index was built from a
library with pairwise distinct catalog ids, and a record `m` of that library
among the records of the current page: its row is one button, labelled with the title, followed by
" ✅" iff the local id of `m` is in the selection, and carrying the row-select
prefix followed by the decimal catalog id; this token is none of the fixed
literal tokens; stripping the prefix and looking the remainder up in the
catalog index gives `m`; and `deleteMovie` on this token stores the session
with the selection toggled on `m`. -/
theorem row_round_trip (L : Lib) (r : Radarr) (b : Bot) (update : Update) (chatID : Int)
    (command : userDeleteMovie) (cq : CallbackQuery) (movies shown : List Movie) (m : Movie)
    (tp : Int)
    (hk : getChatID update = some chatID) (hg : getDeleteMovieState b chatID = some command)
    (hq : update.CallbackQuery = some cq)
    (hlib : command.library = buildLibrary movies)
    (hnd : (movies.map (fun movie => movie.TmdbID)).Nodup) (hm : m ∈ movies)
    (ht : totalPages command.moviesForSelection b.Config.MaxItems = some tp)
    (hs : pageSlice command.moviesForSelection command.page b.Config.MaxItems = some shown)
    (hshown : m ∈ shown)
    (hd : cq.Data = DeleteMovieTMDBID ++ Itoa m.TmdbID) :
    (∃ rows, movieKeyboard command b.Config.MaxItems = some rows ∧
      [(⟨if m.ID ∈ localIDs command.selectedMovies then m.Title ++ " ✅" else m.Title,
         DeleteMovieTMDBID ++ Itoa m.TmdbID⟩ : Button)] ∈ rows) ∧
      DeleteMovieTMDBID ++ Itoa m.TmdbID ∉ literalTokens ∧
      GoMap.get command.library
        (TrimPrefix (DeleteMovieTMDBID ++ Itoa m.TmdbID) DeleteMovieTMDBID) = some m ∧
      ∃ res, deleteMovie L r b update = some res ∧
        getDeleteMovieState res.bot command.chatID
          = some { command with
                   selectedMovies := toggleSelection command.selectedMovies m } := by
  have hget : GoMap.get command.library
      (TrimPrefix (DeleteMovieTMDBID ++ Itoa m.TmdbID) DeleteMovieTMDBID) = some m := by
    rw [TrimPrefix_append, hlib]
    exact get_buildLibrary movies m hnd hm
  refine ⟨⟨shown.map (movieRow command.selectedMovies), ?_, ?_⟩,
    row_token_not_literal _, hget, ?_⟩
  · unfold movieKeyboard
    rw [hs]
    rfl
  · refine List.mem_map.mpr ⟨m, hshown, ?_⟩
    unfold movieRow
    by_cases c : m.ID ∈ localIDs command.selectedMovies
    · simp only [(isSelectedMovie_iff _ _).mpr c, if_pos c, if_true]
    · have hf : isSelectedMovie command.selectedMovies m.ID = false := by
        cases hb : isSelectedMovie command.selectedMovies m.ID with
        | false => rfl
        | true => exact absurd ((isSelectedMovie_iff _ _).mp hb) c
      simp only [hf, if_neg c]
      rfl
  · rw [deleteMovie_row L r b update chatID command cq _ hk hg hq hd, hd,
      handleDeleteMovieSelection_eq L b _ command m hget]
    have hkb : movieKeyboard
        { command with selectedMovies := toggleSelection command.selectedMovies m }
        b.Config.MaxItems
        = some (shown.map (movieRow (toggleSelection command.selectedMovies m))) := by
      unfold movieKeyboard
      simp only [hs]
      rfl
    unfold showDeleteMovieSelection
    have hcfg : (setDeleteMovieState b command.chatID
        { command with selectedMovies := toggleSelection command.selectedMovies m }).Config
          = b.Config := rfl
    have hsm := selectionMessage_eq L b.Config.MaxItems
      { command with selectedMovies := toggleSelection command.selectedMovies m } tp _ ht hkb
    rw [hcfg, hsm]
    refine ⟨_, rfl, ?_⟩
    simp only [Option.bind_eq_bind, Option.some_bind]
    rw [getDeleteMovieState_set]
    exact if_pos rfl

/-- Witness of C12: three records, two per page, page 0, the second record
selected; its row is labelled "Movie 1 ✅", and a click on it deselects it. -/
theorem row_round_trip_witness :
    (∃ rows, movieKeyboard (sampleSession 3 0 [sampleMovie 1]) 2 = some rows ∧
      [(⟨"Movie 1 ✅", "DELETE_MOVIE_TMDBID_101"⟩ : Button)] ∈ rows) ∧
      "DELETE_MOVIE_TMDBID_101" ∉ literalTokens ∧
      GoMap.get (sampleSession 3 0 [sampleMovie 1]).library
        (TrimPrefix "DELETE_MOVIE_TMDBID_101" DeleteMovieTMDBID) = some (sampleMovie 1) ∧
      ∃ res, deleteMovie sampleLib (sampleRadarr 3 none)
          (sampleBot 2 (sampleSession 3 0 [sampleMovie 1]))
          (click "DELETE_MOVIE_TMDBID_101") = some res ∧
        getDeleteMovieState res.bot 7 = some (sampleSession 3 0 []) :=
  row_round_trip sampleLib (sampleRadarr 3 none)
    (sampleBot 2 (sampleSession 3 0 [sampleMovie 1])) (click "DELETE_MOVIE_TMDBID_101") 7
    (sampleSession 3 0 [sampleMovie 1]) ⟨7, some ⟨8, 1, 7, ""⟩, "DELETE_MOVIE_TMDBID_101"⟩
    (sampleMovies 3) [sampleMovie 0, sampleMovie 1] (sampleMovie 1) 2
    rfl rfl rfl rfl (by decide) (by decide) (by decide) (by decide) (by decide) (by decide)

/-- C12, counterexample. The library holds three records with the catalog
ids 100, 101 and 102; the delete command carries a search text and the lookup
answers two records with a local id, the first with the catalog id 348, which
no record of the library has. The stored session shows both as rows; the
token of the first row, stripped of its prefix, is no key of the catalog
index, and `deleteMovie` on that token dereferences nil: no record is
toggled. -/
theorem row_outside_library_panics :
    ((sampleMovies 3).map (fun movie => movie.TmdbID)).Nodup ∧
      (processDeleteCommand sampleLib (searchRadarr 3 [strayMatch, sampleMovie 1])
          (sampleStart 2) (deleteCommand "alien") 7 sentMessage).map (fun res => res.1)
        = some (sampleBot 2 searchSession) ∧
      searchSession.library = buildLibrary (sampleMovies 3) ∧
      pageSlice searchSession.moviesForSelection searchSession.page 2
        = some [strayMatch, sampleMovie 1] ∧
      movieKeyboard searchSession 2
        = some [[⟨"Alien", "DELETE_MOVIE_TMDBID_348"⟩],
                [⟨"Movie 1", "DELETE_MOVIE_TMDBID_101"⟩]] ∧
      "DELETE_MOVIE_TMDBID_348" = DeleteMovieTMDBID ++ Itoa strayMatch.TmdbID ∧
      GoMap.get searchSession.library
        (TrimPrefix "DELETE_MOVIE_TMDBID_348" DeleteMovieTMDBID) = none ∧
      deleteMovie sampleLib (sampleRadarr 3 none) (sampleBot 2 searchSession)
        (click "DELETE_MOVIE_TMDBID_348") = none := by
  decide

/-! ## Pages partition the candidate list -/

/-- The slice of page `p`, for a page that starts inside the list. -/
theorem pageSlice_nat (movies : List Movie) (k p : Nat) (hk : 1 ≤ k)
    (hno : len movies + (k : Int) - 1 ≤ maxInt64) (hp : p * k < movies.length) :
    pageSlice movies (p : Int) (k : Int) = some ((movies.drop (p * k)).take k) := by
  unfold maxInt64 len at hno
  have e1 : (p : Int) * (k : Int) = ((p * k : Nat) : Int) := by push_cast; ring
  have e2 : ((p : Int) + 1) * (k : Int) = ((p * k : Nat) : Int) + (k : Int) := by
    push_cast; ring
  have s1 : startIndex (p : Int) (k : Int) = ((p * k : Nat) : Int) := by
    unfold startIndex goMul
    rw [e1]
    exact wrap64_eq (by unfold isInt64; omega)
  have s2 : goMul (goAdd (p : Int) 1) (k : Int) = ((p * k : Nat) : Int) + (k : Int) := by
    have hle : p ≤ p * k := Nat.le_mul_of_pos_right p (by omega)
    unfold goMul goAdd
    rw [wrap64_eq (x := (p : Int) + 1) (by unfold isInt64; omega), e2]
    exact wrap64_eq (by unfold isInt64; omega)
  unfold pageSlice goSlice endIndex
  simp only [s1, s2]
  unfold len
  have t1 : ((p * k : Nat) : Int).toNat = p * k := Int.toNat_ofNat _
  have t2 : ((movies.length : Nat) : Int).toNat = movies.length := Int.toNat_ofNat _
  have t3 : (((p * k : Nat) : Int) + (k : Int)).toNat = p * k + k := by omega
  by_cases c : ((p * k : Nat) : Int) + (k : Int) > (movies.length : Int)
  · rw [if_pos c, if_pos ⟨by omega, by omega, le_refl _⟩, t1, t2,
      List.take_of_length_le (by rw [List.length_drop]),
      List.take_of_length_le (by rw [List.length_drop]; omega)]
  · rw [if_neg c, if_pos ⟨by omega, by omega, by omega⟩, t1, t3, Nat.add_sub_cancel_left]

/-- The first `t` pages, concatenated, are the first `t * k` records. -/
theorem chunks_flatten {α : Type} (l : List α) (k t : Nat) :
    ((List.range t).map (fun p => (l.drop (p * k)).take k)).flatten = l.take (t * k) := by
  induction t with
  | zero => simp
  | succ t ih =>
    rw [List.range_succ, List.map_append, List.flatten_append, ih, Nat.succ_mul,
      List.take_add]
    simp

theorem ceil_nat (n k : Nat) (hk : 1 ≤ k) :
    n ≤ (n + k - 1) / k * k ∧ (n ≠ 0 → ((n + k - 1) / k - 1) * k < n ∧ 1 ≤ (n + k - 1) / k) := by
  have e := Nat.div_add_mod (n + k - 1) k
  have m := Nat.mod_lt (n + k - 1) (show k > 0 by omega)
  have c : k * ((n + k - 1) / k) = (n + k - 1) / k * k := Nat.mul_comm _ _
  rw [c] at e
  refine ⟨by omega, fun hn => ?_⟩
  have h1 : 1 ≤ (n + k - 1) / k := (Nat.one_le_div_iff (by omega)).mpr (by omega)
  refine ⟨?_, h1⟩
  have d : ((n + k - 1) / k - 1) * k = (n + k - 1) / k * k - k := by
    rw [Nat.sub_mul, Nat.one_mul]
  rw [d]
  have : k ≤ (n + k - 1) / k * k := Nat.le_mul_of_pos_left k (by omega)
  omega

/-- C20, as amended. For every candidate list and every `pageSize ≥ 1` such
that `len + pageSize - 1` does not exceed the largest 64-bit `int`, the page
slices of the pages `0, ..., totalPages - 1` are all built, their
concatenation is the candidate list, every page but the last has exactly
`pageSize` rows, and for a non-empty list the last page has between 1 and
`pageSize` rows. -/
theorem pages_partition (movies : List Movie) (pageSize : Int) (h1 : 1 ≤ pageSize)
    (h2 : len movies + pageSize - 1 ≤ maxInt64) :
    ∃ (tp : Int) (pages : List (List Movie)),
      totalPages movies pageSize = some tp ∧
      pageSlices movies pageSize tp = pages.map some ∧
      pages.flatten = movies ∧
      (∀ p (hp : p < pages.length), p + 1 < pages.length →
        ((pages.get ⟨p, hp⟩).length : Int) = pageSize) ∧
      (movies ≠ [] → ∃ last, pages.getLast? = some last ∧ 1 ≤ last.length ∧
        (last.length : Int) ≤ pageSize) := by
  obtain ⟨k, hk⟩ : ∃ k : Nat, pageSize = (k : Int) := ⟨pageSize.toNat, by omega⟩
  subst hk
  have hk1 : 1 ≤ k := by omega
  obtain ⟨c1, c2⟩ := ceil_nat movies.length k hk1
  have htp : totalPages movies (k : Int) = some (((movies.length + k - 1) / k : Nat) : Int) := by
    rw [totalPages_eq movies _ h1 h2]
    congr 1
    unfold len
    rw [Int.natCast_div]
    congr 1
    omega
  have hlt : ∀ p, p < (movies.length + k - 1) / k → p * k < movies.length := by
    intro p hp
    have hn : movies.length ≠ 0 := by
      intro h0
      rw [h0, Nat.zero_add, Nat.div_eq_of_lt (by omega)] at hp
      omega
    have hle : p * k ≤ ((movies.length + k - 1) / k - 1) * k :=
      Nat.mul_le_mul_right k (by omega)
    have := (c2 hn).1
    omega
  refine ⟨_, (List.range ((movies.length + k - 1) / k)).map
    (fun p => (movies.drop (p * k)).take k), htp, ?_, ?_, ?_, ?_⟩
  · unfold pageSlices
    rw [Int.toNat_ofNat, List.map_map]
    apply List.map_congr_left
    intro p hp
    exact pageSlice_nat movies k p hk1 h2 (hlt p (List.mem_range.mp hp))
  · rw [chunks_flatten, List.take_of_length_le c1]
  · intro p hp hp1
    rw [List.length_map, List.length_range] at hp hp1
    have hs := hlt (p + 1) hp1
    rw [Nat.succ_mul] at hs
    simp only [List.get_eq_getElem, List.getElem_map, List.getElem_range, List.length_take,
      List.length_drop]
    omega
  · intro hne
    have hn : movies.length ≠ 0 := fun h0 => hne (List.length_eq_zero.mp h0)
    obtain ⟨c3, c4⟩ := c2 hn
    obtain ⟨t, ht⟩ : ∃ t, (movies.length + k - 1) / k = t + 1 :=
      ⟨(movies.length + k - 1) / k - 1, by omega⟩
    rw [ht] at c3
    rw [ht, List.range_succ, List.map_append]
    refine ⟨(movies.drop (t * k)).take k, by simp, ?_, ?_⟩
    · rw [List.length_take, List.length_drop]
      simp only [Nat.add_sub_cancel] at c3
      omega
    · rw [List.length_take]
      omega

/-- Witness of C20: five records, two per page, pages of 2, 2 and 1 rows. -/
theorem pages_partition_witness :
    ∃ (tp : Int) (pages : List (List Movie)),
      totalPages (sampleMovies 5) 2 = some tp ∧
      pageSlices (sampleMovies 5) 2 tp = pages.map some ∧
      pages.flatten = sampleMovies 5 ∧
      (∀ p (hp : p < pages.length), p + 1 < pages.length →
        ((pages.get ⟨p, hp⟩).length : Int) = 2) ∧
      (sampleMovies 5 ≠ [] → ∃ last, pages.getLast? = some last ∧ 1 ≤ last.length ∧
        (last.length : Int) ≤ 2) :=
  pages_partition (sampleMovies 5) 2 (by decide) (by decide)

/-- C20, counterexample. With two records and `pageSize` the largest 64-bit
`int`, `totalPages` is `-1`: there is no page from 0 to `totalPages - 1`, and
the concatenation of no page slices is not the candidate list. -/
theorem pages_partition_overflow :
    (1 : Int) ≤ 9223372036854775807 ∧ isInt64 9223372036854775807 ∧
      totalPages (sampleMovies 2) 9223372036854775807 = some (-1) ∧
      pageSlices (sampleMovies 2) 9223372036854775807 (-1) = [] ∧
      (([] : List (List Movie)).map some = pageSlices (sampleMovies 2) 9223372036854775807 (-1) ∧
        ([] : List (List Movie)).flatten ≠ sampleMovies 2) := by
  decide

end TeleRadarr
